import Mathlib

/-!
Presence / idle coordinator of Empathy (`libempathy/empathy-idle.c`).

A shallow embedding of the idle manager.  The private record `EmpathyIdlePriv`
becomes a structure, every callback becomes a function on a `World` (the
private record, the GLib timeout sources, and the log of calls made to
Mission Control).  `g_assert_not_reached ()` aborts the process, so every
operation that can reach it returns an `Option`: `none` is the abort.

Collaborators whose code is not part of the sources at hand are inputs of the
model:
* `dm`     : `empathy_presence_get_default_message` (empathy-utils.c);
* `online` : what `empathy_connectivity_is_online` answers during the call;
* `use_conn` : what `empathy_connectivity_get_use_conn` answers.
-/

namespace EmpathyIdle

/-! ## Data model -/

/-- Modelled from the spec: the presence enumeration `TpConnectionPresenceType`
is declared in telepathy-glib, not in the sources at hand.  These are the seven
kinds the spec and the source name,
followed by the two remaining constants of the Telepathy enumeration, listed in
numeric order (`UNSET = 0`, `OFFLINE = 1`, ... `ERROR = 8`). -/
inductive TpConnectionPresenceType
  | UNSET
  | OFFLINE
  | AVAILABLE
  | AWAY
  | EXTENDED_AWAY
  | HIDDEN
  | BUSY
  | UNKNOWN
  | ERROR
  deriving DecidableEq, Repr

/-- Numeric value of a presence constant, used by the `<=` comparison of the
idle guard. -/
def TpConnectionPresenceType.toNat : TpConnectionPresenceType → Nat
  | .UNSET => 0
  | .OFFLINE => 1
  | .AVAILABLE => 2
  | .AWAY => 3
  | .EXTENDED_AWAY => 4
  | .HIDDEN => 5
  | .BUSY => 6
  | .UNKNOWN => 7
  | .ERROR => 8

/-- Modelled from the spec: the remote manager's own presence enumeration
`McPresence` (declared in libmissioncontrol, not in the sources at hand), the
target of the fixed translation. -/
inductive McPresence
  | UNSET
  | OFFLINE
  | AVAILABLE
  | AWAY
  | EXTENDED_AWAY
  | HIDDEN
  | DO_NOT_DISTURB
  deriving DecidableEq, Repr

/-- The `SessionStatus` enumeration of the session manager signal. -/
inductive SessionStatus
  | AVAILABLE
  | INVISIBLE
  | BUSY
  | IDLE
  | UNKNOWN
  deriving DecidableEq, Repr

/-- The private record of the idle manager.  A `gchar *` is an
`Option String` (`none` is `NULL`); the proxies and the Mission Control handle
carry no state of their own here. -/
structure EmpathyIdlePriv where
  state : TpConnectionPresenceType
  status : Option String
  flash_state : TpConnectionPresenceType
  auto_away : Bool
  away_saved_state : TpConnectionPresenceType
  saved_state : TpConnectionPresenceType
  saved_status : Option String
  is_idle : Bool
  ext_away_timeout : Nat
  deriving DecidableEq, Repr

/-- The part of the GLib main context the coordinator uses: the last source id
handed out and the attached timeout sources, each `(id, interval in seconds)`. -/
structure GMainContext where
  last_id : Nat
  sources : List (Nat × Nat)
  deriving DecidableEq, Repr

/-- A call `mission_control_set_presence (mc, mc_state, status, NULL, NULL)`. -/
structure McRequest where
  mc_state : McPresence
  status : Option String
  deriving DecidableEq, Repr

/-- Everything a callback can read or change. -/
structure World where
  priv : EmpathyIdlePriv
  glib : GMainContext
  mc_requests : List McRequest
  deriving DecidableEq, Repr

/-- Number of seconds before entering extended autoaway. -/
def EXT_AWAY_TIME : Nat := 30 * 60

/-! ## Library helpers used by the source -/

/-- The helper `tp_strdiff (a, b)`: the two strings differ (`NULL` only equals
`NULL`). -/
def tp_strdiff (a b : Option String) : Bool :=
  decide (a ≠ b)

/-- The macro `EMP_STR_EMPTY (x)`: `NULL` or the empty string. -/
def EMP_STR_EMPTY (x : Option String) : Bool :=
  match x with
  | none => true
  | some s => decide (s = "")

/-- GLib: `g_timeout_add_seconds` attaches a source and returns its id,
which is never 0. -/
def g_timeout_add_seconds (g : GMainContext) (interval : Nat) : Nat × GMainContext :=
  (g.last_id + 1, { last_id := g.last_id + 1, sources := (g.last_id + 1, interval) :: g.sources })

/-- GLib: `g_source_remove` detaches the source with the given id. -/
def g_source_remove (g : GMainContext) (id : Nat) : GMainContext :=
  { g with sources := g.sources.filter (fun s => decide (s.1 ≠ id)) }

/-- The call `mission_control_set_presence`: fire and forget, logged. -/
def mission_control_set_presence (w : World) (mc_state : McPresence)
    (status : Option String) : World :=
  { w with mc_requests := w.mc_requests ++ [{ mc_state := mc_state, status := status }] }

/-! ## The coordinator -/

/-- Source `idle_presence_changed_cb`: Mission Control reports a presence. -/
def idle_presence_changed_cb (w : World) (state : TpConnectionPresenceType)
    (status : Option String) : World :=
  let state := if state = .UNSET then .OFFLINE else state
  { w with priv := { w.priv with
      state := state
      status := if !EMP_STR_EMPTY status then status else none } }

/-- Source `empathy_idle_do_set_presence`: translate the kind and forward the
request; the `default:` case is `g_assert_not_reached ()`. -/
def empathy_idle_do_set_presence (w : World) (state : TpConnectionPresenceType)
    (status : Option String) : Option World :=
  match state with
  | .OFFLINE => some (mission_control_set_presence w .OFFLINE status)
  | .AVAILABLE => some (mission_control_set_presence w .AVAILABLE status)
  | .AWAY => some (mission_control_set_presence w .AWAY status)
  | .EXTENDED_AWAY => some (mission_control_set_presence w .EXTENDED_AWAY status)
  | .HIDDEN => some (mission_control_set_presence w .HIDDEN status)
  | .BUSY => some (mission_control_set_presence w .DO_NOT_DISTURB status)
  | _ => none

/-- Source `empathy_idle_set_presence`: the unified presence-apply path. -/
def empathy_idle_set_presence (dm : TpConnectionPresenceType → Option String)
    (online : Bool) (w : World) (state : TpConnectionPresenceType)
    (status : Option String) : Option World :=
  let default_status := dm state
  let status := if !tp_strdiff status default_status then none else status
  let w :=
    if !online then
      if tp_strdiff w.priv.status status then
        { w with priv := { w.priv with
            status := if !EMP_STR_EMPTY status then status else none } }
      else w
    else w
  empathy_idle_do_set_presence w state status

/-- Source `empathy_idle_set_state`. -/
def empathy_idle_set_state (dm : TpConnectionPresenceType → Option String)
    (online : Bool) (w : World) (state : TpConnectionPresenceType) : Option World :=
  empathy_idle_set_presence dm online w state w.priv.status

/-- Source `empathy_idle_set_status`. -/
def empathy_idle_set_status (dm : TpConnectionPresenceType → Option String)
    (online : Bool) (w : World) (status : Option String) : Option World :=
  empathy_idle_set_presence dm online w w.priv.state status

/-- Source `empathy_idle_set_flash_state`. -/
def empathy_idle_set_flash_state (w : World) (state : TpConnectionPresenceType) : World :=
  { w with priv := { w.priv with flash_state := state } }

/-- Source `empathy_idle_set_auto_away`. -/
def empathy_idle_set_auto_away (w : World) (auto_away : Bool) : World :=
  { w with priv := { w.priv with auto_away := auto_away } }

/-- Source `idle_ext_away_cb`: the timeout callback; the returned flag is the
`gboolean` GLib reads (`FALSE`: do not call again). -/
def idle_ext_away_cb (dm : TpConnectionPresenceType → Option String)
    (online : Bool) (w : World) : Option (World × Bool) :=
  match empathy_idle_set_state dm online w .EXTENDED_AWAY with
  | none => none
  | some w1 => some ({ w1 with priv := { w1.priv with ext_away_timeout := 0 } }, false)

/-- Source `idle_ext_away_stop`. -/
def idle_ext_away_stop (w : World) : World :=
  if w.priv.ext_away_timeout ≠ 0 then
    { w with
        glib := g_source_remove w.glib w.priv.ext_away_timeout
        priv := { w.priv with ext_away_timeout := 0 } }
  else w

/-- Source `idle_ext_away_start`. -/
def idle_ext_away_start (w : World) : World :=
  if w.priv.ext_away_timeout ≠ 0 then w
  else
    let r := g_timeout_add_seconds w.glib EXT_AWAY_TIME
    { w with glib := r.2, priv := { w.priv with ext_away_timeout := r.1 } }

/-- The condition of the first `if` of `idle_session_status_changed_cb`: auto
away is off, or nothing is saved for a disconnection and the presence is at
most `OFFLINE` or is `HIDDEN`. -/
def idle_guard (p : EmpathyIdlePriv) : Bool :=
  !p.auto_away ||
    (decide (p.saved_state = .UNSET) &&
      (decide (p.state.toNat ≤ TpConnectionPresenceType.OFFLINE.toNat) ||
        decide (p.state = .HIDDEN)))

/-- Source `idle_session_status_changed_cb`. -/
def idle_session_status_changed_cb (dm : TpConnectionPresenceType → Option String)
    (online : Bool) (w : World) (status : SessionStatus) : Option World :=
  let is_idle := decide (status = .IDLE)
  if idle_guard w.priv then
    some { w with priv := { w.priv with is_idle := is_idle } }
  else
    let r : Option World :=
      if is_idle && !w.priv.is_idle then
        let w1 := idle_ext_away_start w
        let w2 : World :=
          if w1.priv.saved_state ≠ .UNSET then
            { w1 with priv := { w1.priv with away_saved_state := w1.priv.saved_state } }
          else
            { w1 with priv := { w1.priv with away_saved_state := w1.priv.state } }
        let new_state : TpConnectionPresenceType :=
          if w2.priv.state = .EXTENDED_AWAY then .EXTENDED_AWAY else .AWAY
        empathy_idle_set_state dm online w2 new_state
      else if !is_idle && w.priv.is_idle then
        let w1 := idle_ext_away_stop w
        let c : World × Option String :=
          if w1.priv.away_saved_state = .AWAY ∨ w1.priv.away_saved_state = .EXTENDED_AWAY then
            ({ w1 with priv := { w1.priv with away_saved_state := .AVAILABLE } }, none)
          else (w1, w1.priv.status)
        match empathy_idle_set_presence dm online c.1 c.1.priv.away_saved_state c.2 with
        | none => none
        | some w3 => some { w3 with priv := { w3.priv with away_saved_state := .UNSET } }
      else some w
    match r with
    | none => none
    | some w4 => some { w4 with priv := { w4.priv with is_idle := is_idle } }

/-- Source `idle_state_change_cb`: the connectivity object signals a change. -/
def idle_state_change_cb (dm : TpConnectionPresenceType → Option String)
    (online : Bool) (w : World) (old_online new_online : Bool) : Option World :=
  if old_online && !new_online then
    let w1 : World := { w with priv := { w.priv with
      saved_state := w.priv.state
      saved_status := w.priv.status } }
    empathy_idle_set_state dm online w1 .OFFLINE
  else if !old_online && new_online && decide (w.priv.saved_state ≠ .UNSET) then
    match empathy_idle_set_presence dm online w w.priv.saved_state w.priv.saved_status with
    | none => none
    | some w1 => some { w1 with priv := { w1.priv with
        saved_state := .UNSET
        saved_status := none } }
  else some w

/-- Source `idle_use_conn_cb`: the `use-conn` property of the connectivity
object changed; `use_conn` is its new value. -/
def idle_use_conn_cb (dm : TpConnectionPresenceType → Option String)
    (online : Bool) (w : World) (use_conn : Bool) : Option World :=
  if !use_conn then
    let r : Option World :=
      if w.priv.saved_state ≠ .UNSET then
        empathy_idle_set_state dm online w w.priv.saved_state
      else some w
    match r with
    | none => none
    | some w1 => some { w1 with priv := { w1.priv with saved_state := .UNSET } }
  else some w

/-- Source `empathy_idle_get_actual_presence`: the translation of what Mission
Control answers at construction. -/
def empathy_idle_get_actual_presence (presence : McPresence) : TpConnectionPresenceType :=
  match presence with
  | .OFFLINE => .OFFLINE
  | .AVAILABLE => .AVAILABLE
  | .AWAY => .AWAY
  | .EXTENDED_AWAY => .EXTENDED_AWAY
  | .HIDDEN => .HIDDEN
  | .DO_NOT_DISTURB => .BUSY
  | _ => .OFFLINE

/-- Source `empathy_idle_init`: the private record is zero filled, then the
presence and the message Mission Control answers are stored; each query may
fail (`presence_error`, `message_error`). -/
def empathy_idle_init (presence : McPresence) (presence_error : Bool)
    (message : Option String) (message_error : Bool) : World :=
  { priv :=
      { state := if presence_error then .OFFLINE else empathy_idle_get_actual_presence presence
        status := if message_error || EMP_STR_EMPTY message then none else message
        flash_state := .UNSET
        auto_away := false
        away_saved_state := .UNSET
        saved_state := .UNSET
        saved_status := none
        is_idle := false
        ext_away_timeout := 0 }
    glib := { last_id := 0, sources := [] }
    mc_requests := [] }

/-- The value of `status` after the default-message test at the head of
`empathy_idle_set_presence`. -/
def normalized_status (dm : TpConnectionPresenceType → Option String)
    (state : TpConnectionPresenceType) (status : Option String) : Option String :=
  if !tp_strdiff status (dm state) then none else status

/-- The private status after the "not online" block of
`empathy_idle_set_presence`, given the already normalized `status`. -/
def cached_status (online : Bool) (cur status : Option String) : Option String :=
  if !online then
    if tp_strdiff cur status then
      (if !EMP_STR_EMPTY status then status else none)
    else cur
  else cur

/-- An instance of the default-message table (the untranslated texts), used to
evaluate the coordinator on concrete inputs; the general theorems hold for
every table. -/
def default_message_C : TpConnectionPresenceType → Option String
  | .AVAILABLE => some "Available"
  | .BUSY => some "Busy"
  | .AWAY => some "Away"
  | .EXTENDED_AWAY => some "Away"
  | .HIDDEN => some "Hidden"
  | .OFFLINE => some "Offline"
  | _ => none

/-- The translation table of the `switch` in `empathy_idle_do_set_presence`;
`none` is its `default:` case. -/
def mc_presence_of : TpConnectionPresenceType → Option McPresence
  | .OFFLINE => some .OFFLINE
  | .AVAILABLE => some .AVAILABLE
  | .AWAY => some .AWAY
  | .EXTENDED_AWAY => some .EXTENDED_AWAY
  | .HIDDEN => some .HIDDEN
  | .BUSY => some .DO_NOT_DISTURB
  | _ => none

/-- The kind restored when the session stops being idle: `AVAILABLE` in place
of a saved `AWAY` or `EXTENDED_AWAY`. -/
def restored_state (away_saved_state : TpConnectionPresenceType) : TpConnectionPresenceType :=
  if away_saved_state = .AWAY ∨ away_saved_state = .EXTENDED_AWAY then .AVAILABLE
  else away_saved_state

/-- The status passed along with `restored_state`: `NULL` in place of a saved
`AWAY` or `EXTENDED_AWAY`, the cached status otherwise. -/
def restored_status (away_saved_state : TpConnectionPresenceType)
    (status : Option String) : Option String :=
  if away_saved_state = .AWAY ∨ away_saved_state = .EXTENDED_AWAY then none else status

/-- A constructed coordinator used for concrete evaluations: Mission Control
answered Available with the message "Working", then auto-away was switched on. -/
def world_working : World :=
  empathy_idle_set_auto_away (empathy_idle_init .AVAILABLE false (some "Working") false) true

/-- A constructed coordinator used for concrete evaluations: Mission Control
answered Extended-Away with no message, then auto-away was switched on. -/
def world_ext_away : World :=
  empathy_idle_set_auto_away (empathy_idle_init .EXTENDED_AWAY false none false) true

/-! ## Events -/

/-- What can happen to the coordinator: the signals it is connected to, the
timeout GLib dispatches, and the public setters. -/
inductive Event
  | PresenceChanged (state : TpConnectionPresenceType) (status : Option String)
  | SessionStatusChanged (status : SessionStatus)
  | ExtAwayTimeout
  | StateChange (old_online new_online : Bool)
  | NotifyUseConn (use_conn : Bool)
  | SetState (state : TpConnectionPresenceType)
  | SetStatus (status : Option String)
  | SetPresence (state : TpConnectionPresenceType) (status : Option String)
  | SetFlashState (state : TpConnectionPresenceType)
  | SetAutoAway (auto_away : Bool)
  deriving DecidableEq, Repr

/-- The source whose id the coordinator holds is attached to the main
context. -/
def timer_attached (w : World) : Bool :=
  w.glib.sources.any (fun s => decide (s.1 = w.priv.ext_away_timeout))

/-- GLib dispatching the extended-away timeout: the callback only runs while
its source is attached, and a callback that returns `FALSE` has its source
destroyed. -/
def g_timeout_dispatch (dm : TpConnectionPresenceType → Option String)
    (online : Bool) (w : World) : Option World :=
  if timer_attached w then
    match idle_ext_away_cb dm online w with
    | none => none
    | some (w1, again) =>
      if again then some w1
      else some { w1 with glib := g_source_remove w1.glib w.priv.ext_away_timeout }
  else some w

/-- One event handled to completion; `online` is what the connectivity object
answers while it is handled. -/
def step (dm : TpConnectionPresenceType → Option String) (online : Bool)
    (e : Event) (w : World) : Option World :=
  match e with
  | .PresenceChanged state status => some (idle_presence_changed_cb w state status)
  | .SessionStatusChanged status => idle_session_status_changed_cb dm online w status
  | .ExtAwayTimeout => g_timeout_dispatch dm online w
  | .StateChange o n => idle_state_change_cb dm online w o n
  | .NotifyUseConn u => idle_use_conn_cb dm online w u
  | .SetState state => empathy_idle_set_state dm online w state
  | .SetStatus status => empathy_idle_set_status dm online w status
  | .SetPresence state status => empathy_idle_set_presence dm online w state status
  | .SetFlashState state => some (empathy_idle_set_flash_state w state)
  | .SetAutoAway b => some (empathy_idle_set_auto_away w b)

/-- A sequence of events, each with the connectivity answer current while it is
handled; an abort ends the run. -/
def run (dm : TpConnectionPresenceType → Option String) :
    List (Bool × Event) → World → Option World
  | [], w => some w
  | (online, e) :: es, w =>
    match step dm online e w with
    | none => none
    | some w1 => run dm es w1

/-! ## Vocabulary of the temporal statements -/

/-- The attached sources are exactly the one the handle names: none when the
handle is 0, the single extended-away timeout otherwise. -/
def timer_wf (w : World) : Prop :=
  w.glib.sources =
    if w.priv.ext_away_timeout = 0 then [] else [(w.priv.ext_away_timeout, EXT_AWAY_TIME)]

instance (w : World) : Decidable (timer_wf w) :=
  inferInstanceAs (Decidable (w.glib.sources =
    if w.priv.ext_away_timeout = 0 then [] else [(w.priv.ext_away_timeout, EXT_AWAY_TIME)]))

/-- The coordinator `world_working` after the session went idle (connectivity
online): the extended-away timeout is pending. -/
def world_working_idle : World :=
  (idle_session_status_changed_cb default_message_C true world_working .IDLE).getD world_working

/-- The event is a session-idle signal arriving while the idle flag is clear:
the start of an idle episode. -/
def idle_entry (e : Event) (w : World) : Bool :=
  decide (e = .SessionStatusChanged .IDLE) && !w.priv.is_idle

/-- No event of the run is the start of an idle episode. -/
def no_idle_entry (dm : TpConnectionPresenceType → Option String) :
    List (Bool × Event) → World → Bool
  | [], _ => true
  | (online, e) :: es, w =>
    !idle_entry e w &&
      match step dm online e w with
      | none => true
      | some w1 => no_idle_entry dm es w1

/-- How many times the timeout callback runs along the run: the timeout events
that find the source attached. -/
def timer_firings (dm : TpConnectionPresenceType → Option String) :
    List (Bool × Event) → World → Nat
  | [], _ => 0
  | (online, e) :: es, w =>
    (if e = .ExtAwayTimeout ∧ timer_attached w = true then 1 else 0) +
      match step dm online e w with
      | none => 0
      | some w1 => timer_firings dm es w1

/-- The kinds used by the event from outside (a manual setter or a report by
Mission Control) are among the six mapped kinds. -/
def event_uses_mapped_kinds (e : Event) : Bool :=
  match e with
  | .PresenceChanged k _ => (mc_presence_of k).isSome
  | .SetState k => (mc_presence_of k).isSome
  | .SetPresence k _ => (mc_presence_of k).isSome
  | _ => true

/-- A report by Mission Control stays in the range of its own enumeration:
Unset or one of the six kinds that have a translation. -/
def report_in_range (e : Event) : Bool :=
  match e with
  | .PresenceChanged k _ => decide (k = .UNSET) || (mc_presence_of k).isSome
  | _ => true

/-- The coordinator reached from a failed presence query by a report of Unset,
a report of Busy, auto-away switched on and the session going idle. -/
def world_reported : World :=
  (run default_message_C
    [(true, .PresenceChanged .UNSET none), (false, .PresenceChanged .BUSY (some "In a call")),
     (true, .SetAutoAway true), (true, .SessionStatusChanged .IDLE)]
    (empathy_idle_init .AVAILABLE true none false)).getD
    (empathy_idle_init .AVAILABLE true none false)

end EmpathyIdle

/-!
Live search matcher (`libempathy-gtk/empathy-live-search.c`).

A `gunichar` is a `Char`, the terminating 0 being the character NUL; a
`const gchar *` is an `Option String` read character by character, and a
`gunichar *` is an `Option (List Char)` without its terminator.  The GLib
Unicode functions are inputs of the model (`GUnicode`).
-/

namespace EmpathyLiveSearch

/-- The classes of `GUnicodeType` that `stripped_char` tells apart; every
other class is `OTHER`. -/
inductive GUnicodeType
  | CONTROL
  | FORMAT
  | UNASSIGNED
  | COMBINING_MARK
  | OTHER
  deriving DecidableEq, Repr

/-- The GLib Unicode functions the matcher calls. -/
structure GUnicode where
  g_unichar_type : Char → GUnicodeType
  g_unichar_tolower : Char → Char
  g_unicode_canonical_decomposition : Char → Option (List Char)
  g_unichar_isalnum : Char → Bool

/-- The terminating 0 of a `gunichar` array. -/
def NUL : Char := Char.ofNat 0

/-- Source `stripped_char`. -/
def stripped_char (G : GUnicode) (ch : Char) : Char :=
  match G.g_unichar_type ch with
  | .CONTROL => NUL
  | .FORMAT => NUL
  | .UNASSIGNED => NUL
  | .COMBINING_MARK => NUL
  | .OTHER =>
    match G.g_unicode_canonical_decomposition (G.g_unichar_tolower ch) with
    | some decomp => decomp.headD NUL
    | none => NUL

/-- The `for` loop of `strip_utf8_string`. -/
def strip_loop (G : GUnicode) : List Char → List Char
  | [] => []
  | c :: cs =>
    if stripped_char G c ≠ NUL then stripped_char G c :: strip_loop G cs
    else strip_loop G cs

/-- Source `strip_utf8_string`. -/
def strip_utf8_string (G : GUnicode) (string : Option String) : Option (List Char) :=
  if EmpathyIdle.EMP_STR_EMPTY string then none
  else some (strip_loop G (string.getD "").toList)

/-- First inner loop of `live_search_match_string`: search the start of the
word (skip non alpha-num chars). -/
def skip_non_alnum (G : GUnicode) : List Char → List Char
  | [] => []
  | c :: cs => if !G.g_unichar_isalnum c then skip_non_alnum G cs else c :: cs

/-- Third inner loop of `live_search_match_string`: go to the end of the word
(skip alpha-num chars). -/
def skip_alnum (G : GUnicode) : List Char → List Char
  | [] => []
  | c :: cs => if G.g_unichar_isalnum c then skip_alnum G cs else c :: cs

/-- How the second inner loop ends: with `return TRUE`, or at the position
where it stopped (a mismatch or the end of the string). -/
inductive WordScan
  | matched
  | stopped (p : List Char)
  deriving DecidableEq, Repr

/-- Second inner loop of `live_search_match_string`: check if this word
matches; `i` is the index into the stripped text, read as 0 past its end. -/
def match_word (G : GUnicode) (pfx : List Char) : List Char → Nat → WordScan
  | [], _ => .stopped []
  | c :: cs, i =>
    if stripped_char G c ≠ NUL then
      if stripped_char G c ≠ pfx.getD i NUL then .stopped (c :: cs)
      else if pfx.getD (i + 1) NUL = NUL then .matched
      else match_word G pfx cs (i + 1)
    else match_word G pfx cs i

/-- The outer `for` loop of `live_search_match_string`; `none` when the fuel
runs out before the loop ends. -/
def match_loop (G : GUnicode) (pfx : List Char) : Nat → List Char → Option Bool
  | 0, _ => none
  | fuel + 1, p =>
    match p with
    | [] => some false
    | _ :: _ =>
      match match_word G pfx (skip_non_alnum G p) 0 with
      | .matched => some true
      | .stopped p2 =>
        match skip_alnum G p2 with
        | [] => some false
        | _ :: p3 => match_loop G pfx fuel p3

/-- Source `live_search_match_string`; the loop gets one unit of fuel per
character plus one. -/
def live_search_match_string (G : GUnicode) (string : Option String)
    (pfx : Option (List Char)) : Option Bool :=
  match pfx with
  | none => some true
  | some t =>
    if t.getD 0 NUL = NUL then some true
    else if EmpathyIdle.EMP_STR_EMPTY string then some false
    else match_loop G t ((string.getD "").toList.length + 1) (string.getD "").toList

/-- Source `empathy_live_search_match_string`. -/
def empathy_live_search_match_string (G : GUnicode) (string pfx : Option String) :
    Option Bool :=
  live_search_match_string G string (strip_utf8_string G pfx)

/-- The printable ASCII characters. -/
def printable (c : Char) : Prop := 32 ≤ c.toNat ∧ c.toNat ≤ 126

instance (c : Char) : Decidable (printable c) :=
  inferInstanceAs (Decidable (32 ≤ c.toNat ∧ c.toNat ≤ 126))

/-- What the GLib functions do on printable ASCII: no such character is a
control, format, unassigned or combining character, lower-casing is the ASCII
one, a character is its own canonical decomposition, and the alphanumeric
characters are the ASCII letters and digits. -/
def GUnicode.ascii_exact (G : GUnicode) : Prop :=
  ∀ c : Char, printable c →
    G.g_unichar_type c = .OTHER ∧ G.g_unichar_tolower c = c.toLower ∧
    G.g_unicode_canonical_decomposition c = some [c] ∧
    G.g_unichar_isalnum c = c.isAlphanum

/-- An instance of the GLib functions that is exact on ASCII, used to evaluate
the matcher on concrete inputs. -/
def glib_ascii : GUnicode where
  g_unichar_type := fun c => if c.toNat < 32 ∨ c.toNat = 127 then .CONTROL else .OTHER
  g_unichar_tolower := Char.toLower
  g_unicode_canonical_decomposition := fun c => some [c]
  g_unichar_isalnum := Char.isAlphanum

/-- Spec: the words of a string, its maximal runs of alphanumeric
characters. -/
def spec_words : List Char → List (List Char)
  | [] => []
  | c :: cs =>
    if c.isAlphanum then
      match cs with
      | [] => [[c]]
      | d :: _ =>
        if d.isAlphanum then
          match spec_words cs with
          | w :: ws => (c :: w) :: ws
          | [] => [[c]]
        else [c] :: spec_words cs
    else spec_words cs

/-- Spec: some word of the string starts with the text, compared
case-insensitively. -/
def spec_some_word_starts_with (string pfx : String) : Prop :=
  ∃ w ∈ spec_words string.toList, pfx.toList.map Char.toLower <+: w.map Char.toLower

instance (string pfx : String) : Decidable (spec_some_word_starts_with string pfx) :=
  inferInstanceAs (Decidable (∃ w ∈ spec_words string.toList,
    pfx.toList.map Char.toLower <+: w.map Char.toLower))

end EmpathyLiveSearch

namespace EmpathyIdle

/-! ## Basic facts about the presence-apply path -/

theorem set_presence_eq (dm : TpConnectionPresenceType → Option String) (online : Bool)
    (w : World) (state : TpConnectionPresenceType) (status : Option String) :
    empathy_idle_set_presence dm online w state status =
      empathy_idle_do_set_presence
        { w with priv := { w.priv with
            status := cached_status online w.priv.status (normalized_status dm state status) } }
        state (normalized_status dm state status) := by
  cases online
  · simp only [empathy_idle_set_presence, cached_status, normalized_status, Bool.not_false,
      if_true]
    split <;> (split <;> simp_all)
  · rfl

theorem idle_ext_away_start_shape (w : World) :
    ∃ t g, idle_ext_away_start w =
      { w with glib := g, priv := { w.priv with ext_away_timeout := t } } := by
  unfold idle_ext_away_start
  split
  · exact ⟨w.priv.ext_away_timeout, w.glib, rfl⟩
  · exact ⟨_, _, rfl⟩

/-- The whole effect of a session-idle signal that passes the guard while the
idle flag is clear. -/
theorem session_idle_enter (dm : TpConnectionPresenceType → Option String) (online : Bool)
    (w : World) (hg : idle_guard w.priv = false) (hi : w.priv.is_idle = false) :
    idle_session_status_changed_cb dm online w .IDLE =
      some
        { priv := { w.priv with
            ext_away_timeout := (idle_ext_away_start w).priv.ext_away_timeout
            away_saved_state :=
              if w.priv.saved_state ≠ .UNSET then w.priv.saved_state else w.priv.state
            status := cached_status online w.priv.status
              (normalized_status dm
                (if w.priv.state = .EXTENDED_AWAY then .EXTENDED_AWAY else .AWAY) w.priv.status)
            is_idle := true }
          glib := (idle_ext_away_start w).glib
          mc_requests := w.mc_requests ++
            [⟨if w.priv.state = .EXTENDED_AWAY then .EXTENDED_AWAY else .AWAY,
              normalized_status dm
                (if w.priv.state = .EXTENDED_AWAY then .EXTENDED_AWAY else .AWAY)
                w.priv.status⟩] } := by
  obtain ⟨t, g, h⟩ := idle_ext_away_start_shape w
  simp only [idle_session_status_changed_cb, hg, hi, empathy_idle_set_state, set_presence_eq, h]
  by_cases hs : w.priv.saved_state = .UNSET <;> by_cases he : w.priv.state = .EXTENDED_AWAY <;>
    simp [hs, he, empathy_idle_do_set_presence, mission_control_set_presence]

theorem do_set_presence_eq (w : World) (state : TpConnectionPresenceType)
    (status : Option String) :
    empathy_idle_do_set_presence w state status =
      (mc_presence_of state).map (fun m => mission_control_set_presence w m status) := by
  cases state <;> rfl

/-- The whole effect of a session signal other than idle that passes the guard
while the idle flag is set. -/
theorem session_idle_leave (dm : TpConnectionPresenceType → Option String) (online : Bool)
    (w : World) (st : SessionStatus) (hst : st ≠ .IDLE)
    (hg : idle_guard w.priv = false) (hi : w.priv.is_idle = true) :
    idle_session_status_changed_cb dm online w st =
      (mc_presence_of (restored_state w.priv.away_saved_state)).map (fun m =>
        { priv := { w.priv with
            ext_away_timeout := 0
            away_saved_state := .UNSET
            status := cached_status online w.priv.status
              (normalized_status dm (restored_state w.priv.away_saved_state)
                (restored_status w.priv.away_saved_state w.priv.status))
            is_idle := false }
          glib := (idle_ext_away_stop w).glib
          mc_requests := w.mc_requests ++
            [⟨m, normalized_status dm (restored_state w.priv.away_saved_state)
                (restored_status w.priv.away_saved_state w.priv.status)⟩] }) := by
  have h : idle_ext_away_stop w =
      { w with glib := (idle_ext_away_stop w).glib
               priv := { w.priv with ext_away_timeout := 0 } } := by
    unfold idle_ext_away_stop
    split
    · rfl
    · rename_i h0
      have h0 : w.priv.ext_away_timeout = 0 := by simpa using h0
      obtain ⟨p, g, r⟩ := w
      obtain ⟨a1, a2, a3, a4, a5, a6, a7, a8, a9⟩ := p
      simp only at h0
      subst h0
      rfl
  generalize (idle_ext_away_stop w).glib = g at h
  simp only [idle_session_status_changed_cb, hg, hi, set_presence_eq, do_set_presence_eq, h,
    restored_state, restored_status]
  have hst2 : decide (st = SessionStatus.IDLE) = false := by simpa using hst
  rw [hst2]
  cases hk : w.priv.away_saved_state <;>
    simp [mc_presence_of, mission_control_set_presence]

/-- The guard lets a signal through exactly when auto-away is on and it is not
the case that nothing is saved for a disconnection while the cached presence is
Unset, Offline or Hidden. -/
theorem idle_guard_false_iff (p : EmpathyIdlePriv) :
    idle_guard p = false ↔
      (p.auto_away = true ∧
        ¬ (p.saved_state = .UNSET ∧
            (p.state = .UNSET ∨ p.state = .OFFLINE ∨ p.state = .HIDDEN))) := by
  obtain ⟨k, a2, a3, aa, a5, sv, a7, a8, a9⟩ := p
  cases aa <;> cases k <;> cases sv <;> simp [idle_guard, TpConnectionPresenceType.toNat]

theorem run_cons_some (dm : TpConnectionPresenceType → Option String) (online : Bool)
    (e : Event) (es : List (Bool × Event)) (w w1 : World) (h : step dm online e w = some w1) :
    run dm ((online, e) :: es) w = run dm es w1 := by
  simp [run, h]

/-- The whole effect of the connectivity signal online to offline. -/
theorem state_change_disconnect (dm : TpConnectionPresenceType → Option String)
    (online : Bool) (w : World) :
    idle_state_change_cb dm online w true false =
      some
        { priv := { w.priv with
            saved_state := w.priv.state
            saved_status := w.priv.status
            status := cached_status online w.priv.status
              (normalized_status dm .OFFLINE w.priv.status) }
          glib := w.glib
          mc_requests := w.mc_requests ++
            [⟨.OFFLINE, normalized_status dm .OFFLINE w.priv.status⟩] } := by
  simp [idle_state_change_cb, empathy_idle_set_state, set_presence_eq, do_set_presence_eq,
    mc_presence_of, mission_control_set_presence]

/-- The whole effect of the connectivity signal offline to online while
something is saved for the disconnection. -/
theorem state_change_reconnect (dm : TpConnectionPresenceType → Option String)
    (online : Bool) (w : World) (h : w.priv.saved_state ≠ .UNSET) :
    idle_state_change_cb dm online w false true =
      (mc_presence_of w.priv.saved_state).map (fun m =>
        { priv := { w.priv with
            saved_state := .UNSET
            saved_status := none
            status := cached_status online w.priv.status
              (normalized_status dm w.priv.saved_state w.priv.saved_status) }
          glib := w.glib
          mc_requests := w.mc_requests ++
            [⟨m, normalized_status dm w.priv.saved_state w.priv.saved_status⟩] }) := by
  simp only [idle_state_change_cb, set_presence_eq, do_set_presence_eq]
  cases hk : w.priv.saved_state <;>
    simp_all [mc_presence_of, mission_control_set_presence]

/-! ## Session idle signal -/

/-- C1 (counterexample): from a coordinator with auto-away on, idle flag
clear, nothing saved for a disconnection and cached presence Available with the
status text "Working", going idle and then active forwards Away and then
Available still carrying "Working", not an empty status. -/
theorem idle_then_active_keeps_status_text :
    world_working.priv.auto_away = true ∧ world_working.priv.is_idle = false ∧
    world_working.priv.saved_state = .UNSET ∧ world_working.priv.state = .AVAILABLE ∧
    (run default_message_C
        [(true, .SessionStatusChanged .IDLE), (true, .SessionStatusChanged .AVAILABLE)]
        world_working).map (fun x => x.mc_requests) =
      some [⟨.AWAY, some "Working"⟩, ⟨.AVAILABLE, some "Working"⟩] := by
  decide

/-- C1 (amended): with auto-away on, idle flag clear, nothing saved for a
disconnection and cached presence Available, the idle signal forwards a request
of kind Away, and a following non-idle signal forwards a request of kind
Available carrying the cached status text (normalized against the default
message of Available); when the cached status was empty that status is empty. -/
theorem idle_then_active_from_available (dm : TpConnectionPresenceType → Option String)
    (on1 on2 : Bool) (w : World) (st : SessionStatus) (hst : st ≠ .IDLE)
    (hauto : w.priv.auto_away = true) (hidle : w.priv.is_idle = false)
    (hsaved : w.priv.saved_state = .UNSET) (hstate : w.priv.state = .AVAILABLE) :
    ∃ w1 w2,
      idle_session_status_changed_cb dm on1 w .IDLE = some w1 ∧
      w1.mc_requests = w.mc_requests ++ [⟨.AWAY, normalized_status dm .AWAY w.priv.status⟩] ∧
      idle_session_status_changed_cb dm on2 w1 st = some w2 ∧
      w2.mc_requests = w1.mc_requests ++
        [⟨.AVAILABLE, normalized_status dm .AVAILABLE w1.priv.status⟩] ∧
      (w.priv.status = none →
        w2.mc_requests = w.mc_requests ++ [⟨.AWAY, none⟩, ⟨.AVAILABLE, none⟩]) := by
  have hg : idle_guard w.priv = false := by
    simp [idle_guard, hauto, hsaved, hstate, TpConnectionPresenceType.toNat]
  have h1 := session_idle_enter dm on1 w hg hidle
  simp only [hstate, hsaved] at h1
  simp only [ne_eq, not_true_eq_false, if_false, reduceCtorEq] at h1
  obtain ⟨w1, hw1, ha1, hs1, hk1, hi1, hv1, hr1, ht1⟩ :
      ∃ w1, idle_session_status_changed_cb dm on1 w .IDLE = some w1 ∧
        w1.priv.auto_away = true ∧ w1.priv.saved_state = .UNSET ∧
        w1.priv.state = .AVAILABLE ∧ w1.priv.is_idle = true ∧
        w1.priv.away_saved_state = .AVAILABLE ∧
        w1.mc_requests = w.mc_requests ++ [⟨.AWAY, normalized_status dm .AWAY w.priv.status⟩] ∧
        w1.priv.status =
          cached_status on1 w.priv.status (normalized_status dm .AWAY w.priv.status) :=
    ⟨_, h1, hauto, rfl, rfl, rfl, rfl, rfl, rfl⟩
  have hg1 : idle_guard w1.priv = false := by
    simp [idle_guard, ha1, hs1, hk1, TpConnectionPresenceType.toNat]
  have h2 := session_idle_leave dm on2 w1 st hst hg1 hi1
  simp only [hv1, restored_state, restored_status, mc_presence_of, Option.map_some,
    reduceCtorEq, or_self, if_false] at h2
  refine ⟨w1, _, hw1, hr1, h2, rfl, ?_⟩
  intro hnone
  simp [hr1, ht1, hnone, normalized_status, cached_status, tp_strdiff]

/-- C1 (witness): the amended statement at the constructed coordinator
`world_working`. -/
theorem idle_then_active_from_available_witness :
    ∃ w1 w2,
      idle_session_status_changed_cb default_message_C true world_working .IDLE = some w1 ∧
      w1.mc_requests = world_working.mc_requests ++
        [⟨.AWAY, normalized_status default_message_C .AWAY world_working.priv.status⟩] ∧
      idle_session_status_changed_cb default_message_C false w1 .AVAILABLE = some w2 ∧
      w2.mc_requests = w1.mc_requests ++
        [⟨.AVAILABLE, normalized_status default_message_C .AVAILABLE w1.priv.status⟩] ∧
      (world_working.priv.status = none →
        w2.mc_requests = world_working.mc_requests ++ [⟨.AWAY, none⟩, ⟨.AVAILABLE, none⟩]) :=
  idle_then_active_from_available default_message_C true false world_working .AVAILABLE
    (by decide) (by decide) (by decide) (by decide) (by decide)

/-- C2: when auto-away is off, or nothing is saved for a disconnection and the
cached presence is Offline or Hidden, a session signal only records the idle
flag: no request is forwarded, the timer is neither armed nor cancelled, the
cached presence and both save slots are as before. -/
theorem session_signal_guarded_only_sets_flag
    (dm : TpConnectionPresenceType → Option String) (online : Bool) (w : World)
    (st : SessionStatus)
    (h : w.priv.auto_away = false ∨
      (w.priv.saved_state = .UNSET ∧ (w.priv.state = .OFFLINE ∨ w.priv.state = .HIDDEN))) :
    idle_session_status_changed_cb dm online w st =
      some { w with priv := { w.priv with is_idle := decide (st = .IDLE) } } := by
  have hg : idle_guard w.priv = true := by
    rcases h with h | ⟨h1, h2 | h2⟩
    · simp [idle_guard, h]
    · simp [idle_guard, h1, h2, TpConnectionPresenceType.toNat]
    · simp [idle_guard, h1, h2]
  simp [idle_session_status_changed_cb, hg]

/-- C2 (witness): a freshly constructed coordinator has auto-away off; the
idle signal leaves it untouched apart from the idle flag. -/
theorem session_signal_guarded_only_sets_flag_witness :
    idle_session_status_changed_cb default_message_C true
        (empathy_idle_init .AVAILABLE false (some "Working") false) .IDLE =
      some { empathy_idle_init .AVAILABLE false (some "Working") false with
        priv := { (empathy_idle_init .AVAILABLE false (some "Working") false).priv with
          is_idle := decide (SessionStatus.IDLE = .IDLE) } } :=
  session_signal_guarded_only_sets_flag default_message_C true
    (empathy_idle_init .AVAILABLE false (some "Working") false) .IDLE (Or.inl (by decide))

/-- C3: when the idle signal passes the guard with the idle flag clear, the
request forwarded has kind Extended-Away if the cached kind is Extended-Away
and kind Away for every other cached kind. -/
theorem idle_entry_new_state (dm : TpConnectionPresenceType → Option String) (online : Bool)
    (w : World) (hg : idle_guard w.priv = false) (hi : w.priv.is_idle = false) :
    ∃ w1, idle_session_status_changed_cb dm online w .IDLE = some w1 ∧
      w1.mc_requests = w.mc_requests ++
        [⟨if w.priv.state = .EXTENDED_AWAY then .EXTENDED_AWAY else .AWAY,
          normalized_status dm
            (if w.priv.state = .EXTENDED_AWAY then .EXTENDED_AWAY else .AWAY) w.priv.status⟩] :=
  ⟨_, session_idle_enter dm online w hg hi, rfl⟩

/-- C3 (witness): a coordinator whose cached presence is Extended-Away stays
Extended-Away on the idle signal. -/
theorem idle_entry_new_state_witness :
    ∃ w1, idle_session_status_changed_cb default_message_C true world_ext_away .IDLE = some w1 ∧
      w1.mc_requests = world_ext_away.mc_requests ++
        [⟨if world_ext_away.priv.state = .EXTENDED_AWAY then .EXTENDED_AWAY else .AWAY,
          normalized_status default_message_C
            (if world_ext_away.priv.state = .EXTENDED_AWAY then .EXTENDED_AWAY else .AWAY)
            world_ext_away.priv.status⟩] :=
  idle_entry_new_state default_message_C true world_ext_away (by decide) (by decide)

/-- C4: when the idle signal passes the guard with the idle flag clear, the
idle-save slot receives the disconnect-save kind if that slot is armed (not
Unset), and the cached presence kind otherwise. -/
theorem idle_entry_saves_state (dm : TpConnectionPresenceType → Option String) (online : Bool)
    (w : World) (hg : idle_guard w.priv = false) (hi : w.priv.is_idle = false) :
    ∃ w1, idle_session_status_changed_cb dm online w .IDLE = some w1 ∧
      w1.priv.away_saved_state =
        if w.priv.saved_state ≠ .UNSET then w.priv.saved_state else w.priv.state :=
  ⟨_, session_idle_enter dm online w hg hi, rfl⟩

/-- C4 (witness): at `world_working` nothing is saved for a disconnection, so
the cached kind is what the idle-save slot receives. -/
theorem idle_entry_saves_state_witness :
    ∃ w1, idle_session_status_changed_cb default_message_C true world_working .IDLE = some w1 ∧
      w1.priv.away_saved_state =
        if world_working.priv.saved_state ≠ .UNSET then world_working.priv.saved_state
        else world_working.priv.state :=
  idle_entry_saves_state default_message_C true world_working (by decide) (by decide)

/-! ## Disconnection during an idle episode -/

/-- C5: with auto-away on, starting online and not idle with cached kind `X`
among Offline, Available, Hidden, Busy, the sequence disconnect, idle,
reconnect, active runs to completion and the last request forwarded to the
remote manager has the kind `X` (in the remote enumeration). -/
theorem disconnect_idle_reconnect_active_restores
    (dm : TpConnectionPresenceType → Option String) (o1 o2 o3 o4 : Bool) (w : World)
    (st : SessionStatus) (X : TpConnectionPresenceType) (hst : st ≠ .IDLE)
    (hX : X = .OFFLINE ∨ X = .AVAILABLE ∨ X = .HIDDEN ∨ X = .BUSY)
    (hauto : w.priv.auto_away = true) (hidle : w.priv.is_idle = false)
    (hstate : w.priv.state = X) :
    ∃ w4 m status,
      run dm [(o1, .StateChange true false), (o2, .SessionStatusChanged .IDLE),
              (o3, .StateChange false true), (o4, .SessionStatusChanged st)] w = some w4 ∧
      mc_presence_of X = some m ∧
      w4.mc_requests.getLast? = some ⟨m, status⟩ ∧
      m ≠ .AWAY ∧ (X ≠ .OFFLINE → m ≠ .OFFLINE) := by
  have hmX : ∀ m, mc_presence_of X = some m → m ≠ .AWAY ∧ (X ≠ .OFFLINE → m ≠ .OFFLINE) := by
    intro m hm
    rcases hX with h | h | h | h <;> subst h <;> simp [mc_presence_of] at hm <;> subst hm <;> simp
  have hXne : X ≠ .UNSET := by rcases hX with h | h | h | h <;> simp [h]
  have hXext : X ≠ .EXTENDED_AWAY := by rcases hX with h | h | h | h <;> simp [h]
  obtain ⟨m, hm⟩ : ∃ m, mc_presence_of X = some m := by
    rcases hX with h | h | h | h <;> simp [h, mc_presence_of]
  -- disconnect
  obtain ⟨w1, h1, ha1, hi1, hk1, hs1⟩ :
      ∃ w1, step dm o1 (.StateChange true false) w = some w1 ∧
        w1.priv.auto_away = true ∧ w1.priv.is_idle = false ∧ w1.priv.state = X ∧
        w1.priv.saved_state = X :=
    ⟨_, state_change_disconnect dm o1 w, hauto, hidle, hstate, hstate⟩
  -- idle
  have hg1 : idle_guard w1.priv = false := by
    rw [idle_guard_false_iff]
    exact ⟨ha1, fun h => hXne (hs1 ▸ h.1)⟩
  obtain ⟨w2, h2, ha2, hi2, hk2, hs2, hv2⟩ :
      ∃ w2, step dm o2 (.SessionStatusChanged .IDLE) w1 = some w2 ∧
        w2.priv.auto_away = true ∧ w2.priv.is_idle = true ∧ w2.priv.state = X ∧
        w2.priv.saved_state = X ∧ w2.priv.away_saved_state = X := by
    refine ⟨_, session_idle_enter dm o2 w1 hg1 hi1, ha1, rfl, hk1, hs1, ?_⟩
    simp [hs1, hXne]
  -- reconnect
  have hne2 : w2.priv.saved_state ≠ .UNSET := by rw [hs2]; exact hXne
  have h3 := state_change_reconnect dm o3 w2 hne2
  rw [hs2, hm] at h3
  simp only [Option.map] at h3
  obtain ⟨w3, h3, ha3, hi3, hk3, hs3, hv3, hr3⟩ :
      ∃ w3, step dm o3 (.StateChange false true) w2 = some w3 ∧
        w3.priv.auto_away = true ∧ w3.priv.is_idle = true ∧ w3.priv.state = X ∧
        w3.priv.saved_state = .UNSET ∧ w3.priv.away_saved_state = X ∧
        ∃ status, w3.mc_requests = w2.mc_requests ++ [⟨m, status⟩] :=
    ⟨_, h3, ha2, hi2, hk2, rfl, hv2, _, rfl⟩
  obtain ⟨status3, hr3⟩ := hr3
  -- active
  have hrun : ∀ w4, step dm o4 (.SessionStatusChanged st) w3 = some w4 →
      run dm [(o1, .StateChange true false), (o2, .SessionStatusChanged .IDLE),
              (o3, .StateChange false true), (o4, .SessionStatusChanged st)] w = some w4 := by
    intro w4 h4
    rw [run_cons_some dm o1 _ _ w w1 h1, run_cons_some dm o2 _ _ w1 w2 h2,
      run_cons_some dm o3 _ _ w2 w3 h3, run_cons_some dm o4 _ _ w3 w4 h4]
    rfl
  by_cases hg3 : idle_guard w3.priv = true
  · have h4 : step dm o4 (.SessionStatusChanged st) w3 =
        some { w3 with priv := { w3.priv with is_idle := decide (st = .IDLE) } } := by
      simp [step, idle_session_status_changed_cb, hg3]
    refine ⟨_, m, status3, hrun _ h4, hm, ?_, hmX m hm⟩
    simp [hr3]
  · have hg3 : idle_guard w3.priv = false := by simpa using hg3
    have h4 := session_idle_leave dm o4 w3 st hst hg3 hi3
    have hrs : restored_state w3.priv.away_saved_state = X := by
      rw [hv3]
      rcases hX with h | h | h | h <;> simp [h, restored_state]
    rw [hrs, hm] at h4
    simp only [Option.map] at h4
    exact ⟨_, m, _, hrun _ h4, hm, List.getLast?_concat _, hmX m hm⟩

/-- C5 (witness): the sequence from `world_working`, whose cached kind is
Available. -/
theorem disconnect_idle_reconnect_active_restores_witness :
    ∃ w4 m status,
      run default_message_C
        [(true, .StateChange true false), (false, .SessionStatusChanged .IDLE),
         (false, .StateChange false true), (true, .SessionStatusChanged .AVAILABLE)]
        world_working = some w4 ∧
      mc_presence_of .AVAILABLE = some m ∧
      w4.mc_requests.getLast? = some ⟨m, status⟩ ∧
      m ≠ .AWAY ∧ (TpConnectionPresenceType.AVAILABLE ≠ .OFFLINE → m ≠ .OFFLINE) :=
  disconnect_idle_reconnect_active_restores default_message_C true false false true
    world_working .AVAILABLE .AVAILABLE (by decide) (by decide) (by decide) (by decide)
    (by decide)

/-! ## What each event does to the timer -/

/-- A presence-apply call that returns changed nothing but the cached status
and the request log. -/
theorem set_presence_shape (dm : TpConnectionPresenceType → Option String) (online : Bool)
    (w w1 : World) (k : TpConnectionPresenceType) (s : Option String)
    (h : empathy_idle_set_presence dm online w k s = some w1) :
    ∃ m, mc_presence_of k = some m ∧
      w1 = { priv := { w.priv with
               status := cached_status online w.priv.status (normalized_status dm k s) }
             glib := w.glib
             mc_requests := w.mc_requests ++ [⟨m, normalized_status dm k s⟩] } := by
  rw [set_presence_eq, do_set_presence_eq] at h
  cases hm : mc_presence_of k with
  | none => simp [hm] at h
  | some m =>
    refine ⟨m, rfl, ?_⟩
    simp only [hm, Option.map, mission_control_set_presence, Option.some.injEq] at h
    exact h.symm

theorem set_presence_timer (dm : TpConnectionPresenceType → Option String) (online : Bool)
    (w w1 : World) (k : TpConnectionPresenceType) (s : Option String)
    (h : empathy_idle_set_presence dm online w k s = some w1) :
    w1.glib = w.glib ∧ w1.priv.ext_away_timeout = w.priv.ext_away_timeout := by
  obtain ⟨m, -, rfl⟩ := set_presence_shape dm online w w1 k s h
  exact ⟨rfl, rfl⟩

/-- The session signal leaves the timer alone, or arms it at the start of an
idle episode, or cancels it. -/
theorem session_cb_timer (dm : TpConnectionPresenceType → Option String) (online : Bool)
    (w w1 : World) (st : SessionStatus)
    (h : idle_session_status_changed_cb dm online w st = some w1) :
    (w1.glib = w.glib ∧ w1.priv.ext_away_timeout = w.priv.ext_away_timeout) ∨
    (idle_entry (.SessionStatusChanged st) w = true ∧
      w1.glib = (idle_ext_away_start w).glib ∧
      w1.priv.ext_away_timeout = (idle_ext_away_start w).priv.ext_away_timeout) ∨
    (w1.glib = (idle_ext_away_stop w).glib ∧ w1.priv.ext_away_timeout = 0) := by
  by_cases hg : idle_guard w.priv = true
  · left
    simp only [idle_session_status_changed_cb, hg, if_true, Option.some.injEq] at h
    subst h
    exact ⟨rfl, rfl⟩
  · have hg : idle_guard w.priv = false := by simpa using hg
    by_cases hst : st = .IDLE
    · subst hst
      cases hi : w.priv.is_idle with
      | false =>
        right; left
        rw [session_idle_enter dm online w hg hi, Option.some.injEq] at h
        subst h
        exact ⟨by simp [idle_entry, hi], rfl, rfl⟩
      | true =>
        left
        simp only [idle_session_status_changed_cb, hg, hi] at h
        simp at h
        subst h
        exact ⟨rfl, rfl⟩
    · cases hi : w.priv.is_idle with
      | false =>
        left
        have hd : decide (st = SessionStatus.IDLE) = false := by simpa using hst
        simp only [idle_session_status_changed_cb, hg, hi, hd] at h
        simp at h
        subst h
        exact ⟨rfl, rfl⟩
      | true =>
        right; right
        rw [session_idle_leave dm online w st hst hg hi] at h
        cases hm : mc_presence_of (restored_state w.priv.away_saved_state) with
        | none => simp [hm] at h
        | some m =>
          simp only [hm, Option.map, Option.some.injEq] at h
          subst h
          exact ⟨rfl, rfl⟩

/-- The timeout callback: one request of kind Extended-Away, the handle
cleared, `FALSE` returned, no source added. -/
theorem ext_away_cb_shape (dm : TpConnectionPresenceType → Option String) (online : Bool)
    (w : World) :
    idle_ext_away_cb dm online w =
      some
        ({ priv := { w.priv with
             ext_away_timeout := 0
             status := cached_status online w.priv.status
               (normalized_status dm .EXTENDED_AWAY w.priv.status) }
           glib := w.glib
           mc_requests := w.mc_requests ++
             [⟨.EXTENDED_AWAY, normalized_status dm .EXTENDED_AWAY w.priv.status⟩] }, false) := by
  simp [idle_ext_away_cb, empathy_idle_set_state, set_presence_eq, do_set_presence_eq,
    mc_presence_of, mission_control_set_presence]

/-- Every event leaves the timer alone, or arms it at the start of an idle
episode, or cancels it, or is the timeout firing. -/
theorem step_timer (dm : TpConnectionPresenceType → Option String) (online : Bool)
    (e : Event) (w w1 : World) (h : step dm online e w = some w1) :
    (w1.glib = w.glib ∧ w1.priv.ext_away_timeout = w.priv.ext_away_timeout) ∨
    (idle_entry e w = true ∧
      w1.glib = (idle_ext_away_start w).glib ∧
      w1.priv.ext_away_timeout = (idle_ext_away_start w).priv.ext_away_timeout) ∨
    (w1.glib = (idle_ext_away_stop w).glib ∧ w1.priv.ext_away_timeout = 0) ∨
    (e = .ExtAwayTimeout ∧ timer_attached w = true ∧
      w1.glib = g_source_remove w.glib w.priv.ext_away_timeout ∧
      w1.priv.ext_away_timeout = 0) := by
  cases e with
  | PresenceChanged k s =>
    left
    simp only [step, Option.some.injEq] at h
    subst h
    exact ⟨rfl, rfl⟩
  | SessionStatusChanged st =>
    rcases session_cb_timer dm online w w1 st h with h1 | h1 | h1
    · exact Or.inl h1
    · exact Or.inr (Or.inl h1)
    · exact Or.inr (Or.inr (Or.inl h1))
  | ExtAwayTimeout =>
    simp only [step, g_timeout_dispatch, ext_away_cb_shape] at h
    by_cases ha : timer_attached w = true
    · right; right; right
      simp only [ha, if_true, Bool.false_eq_true, if_false, Option.some.injEq] at h
      subst h
      exact ⟨rfl, ha, rfl, rfl⟩
    · left
      have ha : timer_attached w = false := by simpa using ha
      simp only [ha, Bool.false_eq_true, if_false, Option.some.injEq] at h
      subst h
      exact ⟨rfl, rfl⟩
  | StateChange o n =>
    left
    simp only [step, idle_state_change_cb, empathy_idle_set_state] at h
    split at h
    · have h3 := set_presence_timer dm online _ w1 _ _ h
      exact h3
    · split at h
      · split at h
        · exact absurd h (by simp)
        · rename_i w2 h2
          simp only [Option.some.injEq] at h
          subst h
          exact set_presence_timer dm online _ w2 _ _ h2
      · simp only [Option.some.injEq] at h
        subst h
        exact ⟨rfl, rfl⟩
  | NotifyUseConn u =>
    left
    simp only [step, idle_use_conn_cb, empathy_idle_set_state] at h
    split at h
    · split at h
      · exact absurd h (by simp)
      · rename_i w2 h2
        simp only [Option.some.injEq] at h
        subst h
        split at h2
        · exact set_presence_timer dm online _ w2 _ _ h2
        · simp only [Option.some.injEq] at h2
          subst h2
          exact ⟨rfl, rfl⟩
    · simp only [Option.some.injEq] at h
      subst h
      exact ⟨rfl, rfl⟩
  | SetState k => exact Or.inl (set_presence_timer dm online _ w1 _ _ h)
  | SetStatus s => exact Or.inl (set_presence_timer dm online _ w1 _ _ h)
  | SetPresence k s => exact Or.inl (set_presence_timer dm online _ w1 _ _ h)
  | SetFlashState k =>
    left
    simp only [step, Option.some.injEq] at h
    subst h
    exact ⟨rfl, rfl⟩
  | SetAutoAway b =>
    left
    simp only [step, Option.some.injEq] at h
    subst h
    exact ⟨rfl, rfl⟩

theorem timer_attached_ne_zero (w : World) (hwf : timer_wf w)
    (ha : timer_attached w = true) : w.priv.ext_away_timeout ≠ 0 := by
  intro h0
  unfold timer_wf at hwf
  simp [timer_attached, hwf, h0] at ha

theorem timer_attached_of_ne_zero (w : World) (hwf : timer_wf w)
    (h : w.priv.ext_away_timeout ≠ 0) : timer_attached w = true := by
  unfold timer_wf at hwf
  simp [timer_attached, hwf, h]

/-- The invariant linking the handle and the attached sources survives every
event. -/
theorem step_timer_wf (dm : TpConnectionPresenceType → Option String) (online : Bool)
    (e : Event) (w w1 : World) (hwf : timer_wf w) (h : step dm online e w = some w1) :
    timer_wf w1 := by
  unfold timer_wf at hwf ⊢
  rcases step_timer dm online e w w1 h with ⟨hg, ht⟩ | ⟨-, hg, ht⟩ | ⟨hg, ht⟩ | ⟨-, -, hg, ht⟩
  · rw [hg, ht]; exact hwf
  · rw [hg, ht]
    unfold idle_ext_away_start
    by_cases h0 : w.priv.ext_away_timeout = 0
    · simp [h0, hwf, g_timeout_add_seconds]
    · simp [h0, hwf]
  · rw [hg, ht]
    unfold idle_ext_away_stop
    by_cases h0 : w.priv.ext_away_timeout = 0
    · simp [h0, hwf]
    · simp [h0, hwf, g_source_remove]
  · rw [hg, ht]
    by_cases h0 : w.priv.ext_away_timeout = 0
    · simp [h0, hwf, g_source_remove]
    · simp [h0, hwf, g_source_remove]

/-- Only the start of an idle episode turns a zero handle into a pending
timer. -/
theorem step_timer_stays_clear (dm : TpConnectionPresenceType → Option String) (online : Bool)
    (e : Event) (w w1 : World) (h0 : w.priv.ext_away_timeout = 0)
    (hne : idle_entry e w = false) (h : step dm online e w = some w1) :
    w1.priv.ext_away_timeout = 0 := by
  rcases step_timer dm online e w w1 h with ⟨-, ht⟩ | ⟨he, -, -⟩ | ⟨-, ht⟩ | ⟨-, -, -, ht⟩
  · rw [ht, h0]
  · rw [hne] at he; exact absurd he (by simp)
  · exact ht
  · exact ht

/-- Along a run without the start of an idle episode the callback runs at most
once, and not at all once the handle is clear. -/
theorem timer_firings_bound (dm : TpConnectionPresenceType → Option String)
    (es : List (Bool × Event)) :
    ∀ w : World, timer_wf w → no_idle_entry dm es w = true →
      timer_firings dm es w ≤ 1 ∧ (w.priv.ext_away_timeout = 0 → timer_firings dm es w = 0) := by
  induction es with
  | nil => intro w _ _; simp [timer_firings]
  | cons oe es ih =>
    obtain ⟨online, e⟩ := oe
    intro w hwf hno
    simp only [no_idle_entry, Bool.and_eq_true, Bool.not_eq_true'] at hno
    obtain ⟨hne, hrest⟩ := hno
    simp only [timer_firings]
    cases hs : step dm online e w with
    | none =>
      simp only [Nat.add_zero]
      refine ⟨by split <;> simp, ?_⟩
      intro h0
      have hna : ¬ (timer_attached w = true) := fun ha => timer_attached_ne_zero w hwf ha h0
      simp [hna]
    | some w1 =>
      simp only [hs] at hrest
      have hwf1 := step_timer_wf dm online e w w1 hwf hs
      obtain ⟨ihle, ih0⟩ := ih w1 hwf1 hrest
      by_cases hfire : e = .ExtAwayTimeout ∧ timer_attached w = true
      · have hne0 := timer_attached_ne_zero w hwf hfire.2
        have h10 : w1.priv.ext_away_timeout = 0 := by
          rcases step_timer dm online e w w1 hs with
            ⟨-, ht⟩ | ⟨he, -, -⟩ | ⟨-, ht⟩ | ⟨-, -, -, ht⟩
          · obtain ⟨he, ha⟩ := hfire
            subst he
            simp only [step, g_timeout_dispatch, ext_away_cb_shape, ha, if_true,
              Bool.false_eq_true, if_false, Option.some.injEq] at hs
            subst hs
            rfl
          · rw [hne] at he; exact absurd he (by simp)
          · exact ht
          · exact ht
        simp only [hfire, and_self, if_true, ih0 h10]
        exact ⟨le_refl _, fun h0 => absurd h0 hne0⟩
      · simp only [hfire, if_false, Nat.zero_add]
        exact ⟨ihle, fun h0 => ih0 (step_timer_stays_clear dm online e w w1 h0 hne hs)⟩

/-! ## The extended-away timeout -/

/-- C7: the timeout callback forwards one request of kind Extended-Away,
clears the handle and returns `FALSE` without attaching a source; an event that
turns a clear handle into a pending timer is a session-idle signal arriving
with the idle flag clear; and along any run that contains no such start of an
idle episode the callback runs at most once, never once the handle is clear,
and exactly once when the run begins with the timeout firing. -/
theorem ext_away_timer_fires_once (dm : TpConnectionPresenceType → Option String)
    (online : Bool) (w : World) (e : Event) (es : List (Bool × Event)) :
    (∃ w1, idle_ext_away_cb dm online w = some (w1, false) ∧
      w1.priv.ext_away_timeout = 0 ∧ w1.glib = w.glib ∧
      w1.mc_requests = w.mc_requests ++
        [⟨.EXTENDED_AWAY, normalized_status dm .EXTENDED_AWAY w.priv.status⟩]) ∧
    (∀ w1, w.priv.ext_away_timeout = 0 → step dm online e w = some w1 →
      w1.priv.ext_away_timeout ≠ 0 →
      e = .SessionStatusChanged .IDLE ∧ w.priv.is_idle = false) ∧
    (timer_wf w → timer_attached w = true →
      ∃ w1, step dm online .ExtAwayTimeout w = some w1 ∧
        w1.priv.ext_away_timeout = 0 ∧ w1.glib.sources = [] ∧
        w1.mc_requests = w.mc_requests ++
          [⟨.EXTENDED_AWAY, normalized_status dm .EXTENDED_AWAY w.priv.status⟩]) ∧
    (timer_wf w → no_idle_entry dm es w = true →
      timer_firings dm es w ≤ 1 ∧
      (w.priv.ext_away_timeout = 0 → timer_firings dm es w = 0)) ∧
    (timer_wf w → timer_attached w = true →
      no_idle_entry dm ((online, .ExtAwayTimeout) :: es) w = true →
      timer_firings dm ((online, .ExtAwayTimeout) :: es) w = 1) := by
  have hfire : timer_wf w → timer_attached w = true →
      ∃ w1, step dm online .ExtAwayTimeout w = some w1 ∧
        w1.priv.ext_away_timeout = 0 ∧ w1.glib.sources = [] ∧
        w1.mc_requests = w.mc_requests ++
          [⟨.EXTENDED_AWAY, normalized_status dm .EXTENDED_AWAY w.priv.status⟩] := by
    intro hwf ha
    have hs : step dm online .ExtAwayTimeout w = some
        { priv := { w.priv with
            ext_away_timeout := 0
            status := cached_status online w.priv.status
              (normalized_status dm .EXTENDED_AWAY w.priv.status) }
          glib := g_source_remove w.glib w.priv.ext_away_timeout
          mc_requests := w.mc_requests ++
            [⟨.EXTENDED_AWAY, normalized_status dm .EXTENDED_AWAY w.priv.status⟩] } := by
      simp only [step, g_timeout_dispatch, ext_away_cb_shape, ha, if_true,
        Bool.false_eq_true, if_false]
    refine ⟨_, hs, rfl, ?_, rfl⟩
    have hne := timer_attached_ne_zero w hwf ha
    unfold timer_wf at hwf
    simp [g_source_remove, hwf, hne]
  refine ⟨⟨_, ext_away_cb_shape dm online w, rfl, rfl, rfl⟩, ?_, hfire, ?_, ?_⟩
  · intro w1 h0 hs hne
    by_cases hie : idle_entry e w = true
    · simpa [idle_entry] using hie
    · have hie : idle_entry e w = false := by simpa using hie
      exact absurd (step_timer_stays_clear dm online e w w1 h0 hie hs) hne
  · exact timer_firings_bound dm es w
  · intro hwf ha hno
    obtain ⟨w1, hs, h10, -, -⟩ := hfire hwf ha
    have hwf1 := step_timer_wf dm online _ w w1 hwf hs
    simp only [no_idle_entry, hs, Bool.and_eq_true] at hno
    have hrest := (timer_firings_bound dm es w1 hwf1 hno.2).2 h10
    simp [timer_firings, hs, ha, hrest]

/-- C7 (witness): from the coordinator `world_working_idle`, whose timeout is
pending, the timeout fires; later timeouts, a manual state change and a repeated
idle signal (idle flag already set) do not make it fire again. -/
theorem ext_away_timer_fires_once_witness :
    timer_firings default_message_C
      [(true, .ExtAwayTimeout), (true, .ExtAwayTimeout), (false, .SetState .AVAILABLE),
       (true, .SessionStatusChanged .IDLE), (true, .ExtAwayTimeout)]
      world_working_idle = 1 :=
  (ext_away_timer_fires_once default_message_C true world_working_idle .ExtAwayTimeout
    [(true, .ExtAwayTimeout), (false, .SetState .AVAILABLE),
     (true, .SessionStatusChanged .IDLE), (true, .ExtAwayTimeout)]).2.2.2.2
    (by decide) (by decide) (by decide)

/-! ## Leaving an idle episode -/

/-- C6 (failing input): a coordinator constructed Offline, auto-away switched
on, the session goes idle (the guard only records the flag, the idle-save slot
stays Unset), Mission Control reports Available, the session becomes active:
the last handler passes the guard with the idle flag set and hands the Unset
idle-save kind to the translation step, whose default case aborts. -/
theorem active_with_unset_idle_save_aborts :
    (∃ w, run default_message_C
        [(true, .SetAutoAway true), (true, .SessionStatusChanged .IDLE),
         (true, .PresenceChanged .AVAILABLE none)]
        (empathy_idle_init .OFFLINE false none false) = some w ∧
      idle_guard w.priv = false ∧ w.priv.is_idle = true ∧
      w.priv.away_saved_state = .UNSET ∧
      idle_session_status_changed_cb default_message_C true w .AVAILABLE = none) ∧
    run default_message_C
        [(true, .SetAutoAway true), (true, .SessionStatusChanged .IDLE),
         (true, .PresenceChanged .AVAILABLE none), (true, .SessionStatusChanged .AVAILABLE)]
        (empathy_idle_init .OFFLINE false none false) = none := by
  refine ⟨⟨_, rfl, ?_⟩, ?_⟩ <;> decide

/-! ## Connectivity signals -/

/-- C8: from a state whose cached presence is (k, s), k one of the six mapped
kinds, the signal online to offline stores (k, s) in the disconnect-save slot
and forwards a request of kind Offline; an immediately following signal offline
to online forwards what the presence-apply path forwards for (k, s), namely the
kind k with the status s (none when s is the default message of k), and leaves
the slot cleared (Unset, no status).  The signal offline to online with the slot
unarmed changes and forwards nothing. -/
theorem disconnect_then_reconnect (dm : TpConnectionPresenceType → Option String)
    (o1 o2 : Bool) (w : World) (m : McPresence)
    (hk : mc_presence_of w.priv.state = some m) :
    (∃ w1 w2,
      idle_state_change_cb dm o1 w true false = some w1 ∧
      w1.priv.saved_state = w.priv.state ∧ w1.priv.saved_status = w.priv.status ∧
      w1.mc_requests = w.mc_requests ++
        [⟨.OFFLINE, normalized_status dm .OFFLINE w.priv.status⟩] ∧
      idle_state_change_cb dm o2 w1 false true = some w2 ∧
      (empathy_idle_set_presence dm o2 w1 w.priv.state w.priv.status).map
          (fun v => v.mc_requests) = some w2.mc_requests ∧
      w2.mc_requests = w1.mc_requests ++
        [⟨m, normalized_status dm w.priv.state w.priv.status⟩] ∧
      w2.priv.saved_state = .UNSET ∧ w2.priv.saved_status = none) ∧
    (∀ (o : Bool) (w0 : World), w0.priv.saved_state = .UNSET →
      idle_state_change_cb dm o w0 false true = some w0) := by
  constructor
  · have hne : w.priv.state ≠ .UNSET := by
      intro h
      rw [h] at hk
      simp [mc_presence_of] at hk
    obtain ⟨w1, h1, hs1, ht1, hr1⟩ :
        ∃ w1, idle_state_change_cb dm o1 w true false = some w1 ∧
          w1.priv.saved_state = w.priv.state ∧ w1.priv.saved_status = w.priv.status ∧
          w1.mc_requests = w.mc_requests ++
            [⟨.OFFLINE, normalized_status dm .OFFLINE w.priv.status⟩] :=
      ⟨_, state_change_disconnect dm o1 w, rfl, rfl, rfl⟩
    have hne1 : w1.priv.saved_state ≠ .UNSET := by rw [hs1]; exact hne
    have h2 := state_change_reconnect dm o2 w1 hne1
    rw [hs1, ht1, hk] at h2
    simp only [Option.map] at h2
    refine ⟨w1, _, h1, hs1, ht1, hr1, h2, ?_, rfl, rfl, rfl⟩
    rw [set_presence_eq, do_set_presence_eq, hk]
    rfl
  · intro o w0 h0
    simp [idle_state_change_cb, h0]

/-- C8 (witness): disconnecting and reconnecting `world_working`, whose
cached presence is (Available, "Working"). -/
theorem disconnect_then_reconnect_witness :
    (∃ w1 w2,
      idle_state_change_cb default_message_C false world_working true false = some w1 ∧
      w1.priv.saved_state = world_working.priv.state ∧
      w1.priv.saved_status = world_working.priv.status ∧
      w1.mc_requests = world_working.mc_requests ++
        [⟨.OFFLINE, normalized_status default_message_C .OFFLINE world_working.priv.status⟩] ∧
      idle_state_change_cb default_message_C true w1 false true = some w2 ∧
      (empathy_idle_set_presence default_message_C true w1 world_working.priv.state
          world_working.priv.status).map (fun v => v.mc_requests) = some w2.mc_requests ∧
      w2.mc_requests = w1.mc_requests ++
        [⟨.AVAILABLE, normalized_status default_message_C world_working.priv.state
          world_working.priv.status⟩] ∧
      w2.priv.saved_state = .UNSET ∧ w2.priv.saved_status = none) ∧
    (∀ (o : Bool) (w0 : World), w0.priv.saved_state = .UNSET →
      idle_state_change_cb default_message_C o w0 false true = some w0) :=
  disconnect_then_reconnect default_message_C false true world_working .AVAILABLE (by decide)

/-- C9 (failing input): `world_working` is disconnected, which arms the
disconnect-save slot with (Available, "Working"); Mission Control reports
Offline with no message; connectivity tracking is then switched off.  The
handler forwards Available with the current cached status (none) instead of the
saved "Working", and the saved status is still "Working" afterwards. -/
theorem use_conn_disabled_ignores_saved_status :
    (∃ w, run default_message_C
        [(true, .StateChange true false), (false, .PresenceChanged .OFFLINE none)]
        world_working = some w ∧
      w.priv.saved_state = .AVAILABLE ∧ w.priv.saved_status = some "Working" ∧
      w.mc_requests = [⟨.OFFLINE, some "Working"⟩] ∧
      ∃ w1, idle_use_conn_cb default_message_C true w false = some w1 ∧
        w1.mc_requests = [⟨.OFFLINE, some "Working"⟩, ⟨.AVAILABLE, none⟩] ∧
        w1.priv.saved_state = .UNSET ∧ w1.priv.saved_status = some "Working") := by
  refine ⟨_, rfl, ?_, ?_, ?_, _, rfl, ?_, ?_, ?_⟩ <;> decide

/-! ## Default messages -/

/-- C10 (counterexample): while connectivity is online, applying
(Available, default message of Available) to `world_working` leaves the stored
status "Working"; and applying (Unset, default message of Unset) reaches the
assertion of the translation step. -/
theorem default_message_online_keeps_stored_status :
    (empathy_idle_set_presence default_message_C true world_working .AVAILABLE
        (default_message_C .AVAILABLE)).map (fun w => w.priv.status) =
      some (some "Working") ∧
    empathy_idle_set_presence default_message_C false world_working .UNSET
        (default_message_C .UNSET) = none := by
  decide

/-- C10 (amended): for every mapped kind k and every state, applying
(k, default message of k) forwards a request with no status; when connectivity
is offline the stored status afterwards is none, and applying it again leaves it
none; when connectivity is online the stored status is left as it was. -/
theorem default_message_normalized (dm : TpConnectionPresenceType → Option String)
    (o1 o2 : Bool) (w : World) (k : TpConnectionPresenceType) (m : McPresence)
    (hk : mc_presence_of k = some m) :
    ∃ w1 w2,
      empathy_idle_set_presence dm o1 w k (dm k) = some w1 ∧
      w1.mc_requests = w.mc_requests ++ [⟨m, none⟩] ∧
      (o1 = false → w1.priv.status = none) ∧
      (o1 = true → w1.priv.status = w.priv.status) ∧
      empathy_idle_set_presence dm o2 w1 k (dm k) = some w2 ∧
      w2.mc_requests = w1.mc_requests ++ [⟨m, none⟩] ∧
      (o1 = false → w2.priv.status = none) ∧
      (o2 = false → w2.priv.status = none) ∧
      (o2 = true → w2.priv.status = w1.priv.status) := by
  have hn : normalized_status dm k (dm k) = none := by
    simp [normalized_status, tp_strdiff]
  have hc : ∀ cur : Option String, cached_status false cur none = none := by
    intro cur
    cases cur <;> simp [cached_status, tp_strdiff, EMP_STR_EMPTY]
  have key : ∀ (o : Bool) (v : World),
      empathy_idle_set_presence dm o v k (dm k) =
        some { priv := { v.priv with status := cached_status o v.priv.status none }
               glib := v.glib
               mc_requests := v.mc_requests ++ [⟨m, none⟩] } := by
    intro o v
    rw [set_presence_eq, do_set_presence_eq, hk, hn]
    rfl
  refine ⟨_, _, key o1 w, rfl, ?_, ?_, key o2 _, rfl, ?_, ?_, ?_⟩
  · intro h; subst h; exact hc _
  · intro h; subst h; rfl
  · intro h; subst h
    cases o2
    · exact hc _
    · exact hc _
  · intro h; subst h; exact hc _
  · intro h; subst h; rfl

/-- C10 (witness): the amended statement at `world_working` and kind Busy. -/
theorem default_message_normalized_witness :
    ∃ w1 w2,
      empathy_idle_set_presence default_message_C false world_working .BUSY
        (default_message_C .BUSY) = some w1 ∧
      w1.mc_requests = world_working.mc_requests ++ [⟨.DO_NOT_DISTURB, none⟩] ∧
      (false = false → w1.priv.status = none) ∧
      (false = true → w1.priv.status = world_working.priv.status) ∧
      empathy_idle_set_presence default_message_C true w1 .BUSY
        (default_message_C .BUSY) = some w2 ∧
      w2.mc_requests = w1.mc_requests ++ [⟨.DO_NOT_DISTURB, none⟩] ∧
      (false = false → w2.priv.status = none) ∧
      (true = false → w2.priv.status = none) ∧
      (true = true → w2.priv.status = w1.priv.status) :=
  default_message_normalized default_message_C false true world_working .BUSY
    .DO_NOT_DISTURB (by decide)

/-! ## The presence-apply path and the manual setters -/

theorem mc_presence_of_some_iff (k : TpConnectionPresenceType) :
    (∃ m, mc_presence_of k = some m) ↔
      (k = .OFFLINE ∨ k = .AVAILABLE ∨ k = .AWAY ∨ k = .EXTENDED_AWAY ∨ k = .HIDDEN ∨
        k = .BUSY) := by
  cases k <;> simp [mc_presence_of]

/-- The whole effect of the presence-apply path for a mapped kind. -/
theorem set_presence_mapped (dm : TpConnectionPresenceType → Option String) (online : Bool)
    (w : World) (k : TpConnectionPresenceType) (s : Option String) (m : McPresence)
    (hk : mc_presence_of k = some m) :
    empathy_idle_set_presence dm online w k s =
      some { priv := { w.priv with
               status := cached_status online w.priv.status (normalized_status dm k s) }
             glib := w.glib
             mc_requests := w.mc_requests ++ [⟨m, normalized_status dm k s⟩] } := by
  rw [set_presence_eq, do_set_presence_eq, hk]
  rfl

theorem normalized_status_eq (dm : TpConnectionPresenceType → Option String)
    (k : TpConnectionPresenceType) (s : Option String) :
    normalized_status dm k s = if s = dm k then none else s := by
  by_cases h : s = dm k <;> simp [normalized_status, tp_strdiff, h]

/-- C11: for each of the six mapped kinds and every status, the presence-apply
path returns and appends exactly one request to the log, carrying the
translation of the kind and the status (none when it equals the default message
of the kind), whatever the connectivity answer; and the translation step sends
distinct kinds to distinct remote kinds. -/
theorem set_presence_forwards_one_request (dm : TpConnectionPresenceType → Option String)
    (online : Bool) (w : World) (k : TpConnectionPresenceType) (s : Option String)
    (hk : k = .OFFLINE ∨ k = .AVAILABLE ∨ k = .AWAY ∨ k = .EXTENDED_AWAY ∨ k = .HIDDEN ∨
      k = .BUSY) :
    (∃ w1 m, empathy_idle_set_presence dm online w k s = some w1 ∧
      mc_presence_of k = some m ∧
      w1.mc_requests = w.mc_requests ++ [⟨m, if s = dm k then none else s⟩]) ∧
    (∀ (v : World) (k1 k2 : TpConnectionPresenceType) (st : Option String) (v1 v2 : World),
      empathy_idle_do_set_presence v k1 st = some v1 →
      empathy_idle_do_set_presence v k2 st = some v2 →
      v1.mc_requests = v2.mc_requests → k1 = k2) := by
  constructor
  · obtain ⟨m, hm⟩ := (mc_presence_of_some_iff k).mpr hk
    refine ⟨_, m, set_presence_mapped dm online w k s m hm, hm, ?_⟩
    simp only [normalized_status_eq]
  · intro v k1 k2 st v1 v2 h1 h2 h
    cases k1 <;> cases k2 <;>
      simp_all [empathy_idle_do_set_presence, mission_control_set_presence] <;>
      (subst h1; subst h2; simp at h)

/-- C11 (witness): a Busy request with a status of its own from
`world_working`, connectivity offline. -/
theorem set_presence_forwards_one_request_witness :
    ∃ w1 m, empathy_idle_set_presence default_message_C false world_working .BUSY
        (some "In a call") = some w1 ∧
      mc_presence_of .BUSY = some m ∧
      w1.mc_requests = world_working.mc_requests ++
        [⟨m, if some "In a call" = default_message_C .BUSY then none else some "In a call"⟩] :=
  (set_presence_forwards_one_request default_message_C false world_working .BUSY
    (some "In a call") (by decide)).1

/-- C12: for a mapped kind, while connectivity is offline the presence-apply
path changes no field of the private record other than the cached status, and
leaves the timer sources alone; the cached status becomes the normalized status
(none when the status is empty or equals the default message of the kind) when
the status left by the default-message test differs from it, and is untouched
otherwise, which for a cached status that is not the empty string is the
normalized status in both cases.  While connectivity is online the private
record and the timer sources are unchanged. -/
theorem set_presence_local_frame (dm : TpConnectionPresenceType → Option String)
    (w : World) (k : TpConnectionPresenceType) (s : Option String) (m : McPresence)
    (hk : mc_presence_of k = some m) :
    (∃ w1, empathy_idle_set_presence dm false w k s = some w1 ∧
      w1.glib = w.glib ∧
      w1.priv = { w.priv with
        status :=
          if (if s = dm k then none else s) ≠ w.priv.status then
            (if s = dm k ∨ EMP_STR_EMPTY s = true then none else s)
          else w.priv.status } ∧
      (w.priv.status ≠ some "" →
        w1.priv.status = if s = dm k ∨ EMP_STR_EMPTY s = true then none else s)) ∧
    (∃ w1, empathy_idle_set_presence dm true w k s = some w1 ∧
      w1.priv = w.priv ∧ w1.glib = w.glib) := by
  have hst : cached_status false w.priv.status (normalized_status dm k s) =
      if (if s = dm k then none else s) ≠ w.priv.status then
        (if s = dm k ∨ EMP_STR_EMPTY s = true then none else s)
      else w.priv.status := by
    rw [normalized_status_eq]
    by_cases h1 : s = dm k
    · by_cases h2 : w.priv.status = none
      · simp [cached_status, tp_strdiff, h1, h2]
      · have h3 : ¬ (none = w.priv.status) := fun h => h2 h.symm
        simp [cached_status, tp_strdiff, h1, h2, h3, EMP_STR_EMPTY]
    · by_cases h2 : w.priv.status = s
      · simp [cached_status, tp_strdiff, h1, h2]
      · have h3 : ¬ (s = w.priv.status) := fun h => h2 h.symm
        by_cases h4 : EMP_STR_EMPTY s = true <;>
          simp [cached_status, tp_strdiff, h1, h2, h3, h4]
  constructor
  · refine ⟨_, set_presence_mapped dm false w k s m hk, rfl, ?_, ?_⟩
    · simp only [hst]
    · intro hne
      simp only [hst]
      by_cases h1 : s = dm k
      · by_cases h2 : w.priv.status = none
        · simp [h1, h2]
        · have h3 : ¬ (none = w.priv.status) := fun h => h2 h.symm
          simp [h1, h3]
      · by_cases h2 : s = w.priv.status
        · rw [← h2] at hne ⊢
          cases s with
          | none => simp
          | some t =>
            have ht : t ≠ "" := fun h => hne (by rw [h])
            simp [h1, EMP_STR_EMPTY, ht]
        · simp [h1, h2]
  · exact ⟨_, set_presence_mapped dm true w k s m hk, rfl, rfl⟩

/-- C12 (witness): at `world_working` (cached status "Working") the status
"In a call" is applied with kind Busy. -/
theorem set_presence_local_frame_witness :
    (∃ w1, empathy_idle_set_presence default_message_C false world_working .BUSY
        (some "In a call") = some w1 ∧
      w1.glib = world_working.glib ∧
      w1.priv = { world_working.priv with
        status :=
          if (if some "In a call" = default_message_C .BUSY then none else some "In a call")
              ≠ world_working.priv.status then
            (if some "In a call" = default_message_C .BUSY ∨
                EMP_STR_EMPTY (some "In a call") = true then none else some "In a call")
          else world_working.priv.status } ∧
      (world_working.priv.status ≠ some "" →
        w1.priv.status =
          if some "In a call" = default_message_C .BUSY ∨
            EMP_STR_EMPTY (some "In a call") = true then none else some "In a call")) ∧
    (∃ w1, empathy_idle_set_presence default_message_C true world_working .BUSY
        (some "In a call") = some w1 ∧
      w1.priv = world_working.priv ∧ w1.glib = world_working.glib) :=
  set_presence_local_frame default_message_C world_working .BUSY (some "In a call")
    .DO_NOT_DISTURB (by decide)

/-- C15: the auto-away setter changes the auto-away flag and nothing else (no
request is forwarded); the state setter, for a mapped kind, returns and leaves
the timer handle, the attached sources, the idle flag and both save slots as
they were. -/
theorem manual_setters_keep_idle_bookkeeping
    (dm : TpConnectionPresenceType → Option String) (online : Bool) (w : World) (b : Bool)
    (k : TpConnectionPresenceType) (m : McPresence) (hk : mc_presence_of k = some m) :
    step dm online (.SetAutoAway b) w =
      some { w with priv := { w.priv with auto_away := b } } ∧
    (∃ w1, step dm online (.SetState k) w = some w1 ∧
      w1.priv.ext_away_timeout = w.priv.ext_away_timeout ∧ w1.glib = w.glib ∧
      w1.priv.is_idle = w.priv.is_idle ∧
      w1.priv.away_saved_state = w.priv.away_saved_state ∧
      w1.priv.saved_state = w.priv.saved_state ∧
      w1.priv.saved_status = w.priv.saved_status) :=
  ⟨rfl, _, set_presence_mapped dm online w k w.priv.status m hk, rfl, rfl, rfl, rfl, rfl, rfl⟩

/-- C15 (witness): a manual change to Available at `world_working_idle`
leaves the pending timeout in place. -/
theorem manual_setters_keep_idle_bookkeeping_witness :
    step default_message_C true (.SetAutoAway false) world_working_idle =
      some { world_working_idle with
        priv := { world_working_idle.priv with auto_away := false } } ∧
    (∃ w1, step default_message_C true (.SetState .AVAILABLE) world_working_idle = some w1 ∧
      w1.priv.ext_away_timeout = world_working_idle.priv.ext_away_timeout ∧
      w1.glib = world_working_idle.glib ∧
      w1.priv.is_idle = world_working_idle.priv.is_idle ∧
      w1.priv.away_saved_state = world_working_idle.priv.away_saved_state ∧
      w1.priv.saved_state = world_working_idle.priv.saved_state ∧
      w1.priv.saved_status = world_working_idle.priv.saved_status) :=
  manual_setters_keep_idle_bookkeeping default_message_C true world_working_idle false
    .AVAILABLE .AVAILABLE (by decide)

/-! ## Reachable states -/

/-- The session signal never writes the cached presence kind. -/
theorem session_cb_state (dm : TpConnectionPresenceType → Option String) (online : Bool)
    (w w1 : World) (st : SessionStatus)
    (h : idle_session_status_changed_cb dm online w st = some w1) :
    w1.priv.state = w.priv.state := by
  by_cases hg : idle_guard w.priv = true
  · simp only [idle_session_status_changed_cb, hg, if_true, Option.some.injEq] at h
    subst h
    rfl
  · have hg : idle_guard w.priv = false := by simpa using hg
    by_cases hst : st = .IDLE
    · subst hst
      cases hi : w.priv.is_idle with
      | false =>
        rw [session_idle_enter dm online w hg hi, Option.some.injEq] at h
        subst h
        rfl
      | true =>
        simp only [idle_session_status_changed_cb, hg, hi] at h
        simp at h
        subst h
        rfl
    · cases hi : w.priv.is_idle with
      | false =>
        have hd : decide (st = SessionStatus.IDLE) = false := by simpa using hst
        simp only [idle_session_status_changed_cb, hg, hi, hd] at h
        simp at h
        subst h
        rfl
      | true =>
        rw [session_idle_leave dm online w st hst hg hi] at h
        cases hm : mc_presence_of (restored_state w.priv.away_saved_state) with
        | none => simp [hm] at h
        | some m =>
          simp only [hm, Option.map, Option.some.injEq] at h
          subst h
          rfl

theorem set_presence_state (dm : TpConnectionPresenceType → Option String) (online : Bool)
    (w w1 : World) (k : TpConnectionPresenceType) (s : Option String)
    (h : empathy_idle_set_presence dm online w k s = some w1) :
    w1.priv.state = w.priv.state := by
  obtain ⟨m, -, rfl⟩ := set_presence_shape dm online w w1 k s h
  rfl

/-- Only a report by Mission Control writes the cached presence kind, and it
stores Offline in place of Unset. -/
theorem step_state (dm : TpConnectionPresenceType → Option String) (online : Bool)
    (e : Event) (w w1 : World) (h : step dm online e w = some w1) :
    w1.priv.state = w.priv.state ∨
      ∃ k s, e = .PresenceChanged k s ∧
        w1.priv.state = if k = .UNSET then .OFFLINE else k := by
  cases e with
  | PresenceChanged k s =>
    right
    simp only [step, Option.some.injEq] at h
    subst h
    exact ⟨k, s, rfl, rfl⟩
  | SessionStatusChanged st => exact Or.inl (session_cb_state dm online w w1 st h)
  | ExtAwayTimeout =>
    left
    simp only [step, g_timeout_dispatch, ext_away_cb_shape] at h
    split at h
    · simp only [Bool.false_eq_true, if_false, Option.some.injEq] at h
      subst h
      rfl
    · simp only [Option.some.injEq] at h
      subst h
      rfl
  | StateChange o n =>
    left
    simp only [step, idle_state_change_cb, empathy_idle_set_state] at h
    split at h
    · have h3 := set_presence_state dm online _ w1 _ _ h
      exact h3
    · split at h
      · split at h
        · exact absurd h (by simp)
        · rename_i w2 h2
          simp only [Option.some.injEq] at h
          subst h
          exact set_presence_state dm online _ w2 _ _ h2
      · simp only [Option.some.injEq] at h
        subst h
        rfl
  | NotifyUseConn u =>
    left
    simp only [step, idle_use_conn_cb, empathy_idle_set_state] at h
    split at h
    · split at h
      · exact absurd h (by simp)
      · rename_i w2 h2
        simp only [Option.some.injEq] at h
        subst h
        split at h2
        · exact set_presence_state dm online _ w2 _ _ h2
        · simp only [Option.some.injEq] at h2
          subst h2
          rfl
    · simp only [Option.some.injEq] at h
      subst h
      rfl
  | SetState k => exact Or.inl (set_presence_state dm online _ w1 _ _ h)
  | SetStatus s => exact Or.inl (set_presence_state dm online _ w1 _ _ h)
  | SetPresence k s => exact Or.inl (set_presence_state dm online _ w1 _ _ h)
  | SetFlashState k =>
    left
    simp only [step, Option.some.injEq] at h
    subst h
    rfl
  | SetAutoAway b =>
    left
    simp only [step, Option.some.injEq] at h
    subst h
    rfl

theorem report_stored_mapped (k : TpConnectionPresenceType) (s : Option String)
    (h : report_in_range (.PresenceChanged k s) = true) :
    ∃ m, mc_presence_of (if k = .UNSET then .OFFLINE else k) = some m := by
  cases k <;> simp [report_in_range, mc_presence_of] at h ⊢

/-- Along a run whose reports stay in range, a mapped cached kind stays
mapped. -/
theorem run_state_mapped (dm : TpConnectionPresenceType → Option String)
    (es : List (Bool × Event)) :
    ∀ w w1 : World, (∀ oe ∈ es, report_in_range oe.2 = true) →
      (∃ m, mc_presence_of w.priv.state = some m) → run dm es w = some w1 →
      ∃ m, mc_presence_of w1.priv.state = some m := by
  induction es with
  | nil =>
    intro w w1 _ hm h
    simp only [run, Option.some.injEq] at h
    subst h
    exact hm
  | cons oe es ih =>
    obtain ⟨online, e⟩ := oe
    intro w w1 hr hm h
    simp only [run] at h
    cases hs : step dm online e w with
    | none => simp [hs] at h
    | some w2 =>
      simp only [hs] at h
      refine ih w2 w1 (fun oe hoe => hr oe (List.mem_cons_of_mem _ hoe)) ?_ h
      rcases step_state dm online e w w2 hs with h2 | ⟨k, s, he, h2⟩
      · rw [h2]; exact hm
      · have hin := hr (online, e) (List.mem_cons_self _ _)
        subst he
        rw [h2]
        exact report_stored_mapped k s hin

/-- C13 (failing input): a coordinator constructed Available; the session
goes idle while auto-away is off (only the idle flag is recorded), auto-away is
switched on, the session becomes active.  No event names a kind outside the
six, yet the last handler hands the Unset idle-save kind to the translation
step and the run ends in its assertion. -/
theorem translation_default_case_reached :
    (∀ oe ∈ [(true, Event.SessionStatusChanged .IDLE), (true, Event.SetAutoAway true),
        (true, Event.SessionStatusChanged .AVAILABLE)],
      event_uses_mapped_kinds oe.2 = true) ∧
    (∃ w, run default_message_C
        [(true, .SessionStatusChanged .IDLE), (true, .SetAutoAway true)]
        (empathy_idle_init .AVAILABLE false none false) = some w ∧
      w.priv.away_saved_state = .UNSET ∧
      empathy_idle_do_set_presence w w.priv.away_saved_state none = none) ∧
    run default_message_C
        [(true, .SessionStatusChanged .IDLE), (true, .SetAutoAway true),
         (true, .SessionStatusChanged .AVAILABLE)]
        (empathy_idle_init .AVAILABLE false none false) = none := by
  refine ⟨by decide, ⟨_, rfl, ?_, ?_⟩, ?_⟩ <;> decide

/-- C14 (counterexample): auto-away is switched on, the session goes idle
(the timeout is armed), auto-away is switched off: the timeout is still pending
with auto-away disabled, and when it fires it forwards Extended-Away. -/
theorem timer_pending_with_auto_away_off :
    (∃ w, run default_message_C
        [(true, .SetAutoAway true), (true, .SessionStatusChanged .IDLE),
         (true, .SetAutoAway false)]
        (empathy_idle_init .AVAILABLE false (some "Working") false) = some w ∧
      w.priv.ext_away_timeout ≠ 0 ∧ timer_attached w = true ∧
      w.priv.auto_away = false) ∧
    (run default_message_C
        [(true, .SetAutoAway true), (true, .SessionStatusChanged .IDLE),
         (true, .SetAutoAway false), (true, .ExtAwayTimeout)]
        (empathy_idle_init .AVAILABLE false (some "Working") false)).map
        (fun w => w.mc_requests) =
      some [⟨.AWAY, some "Working"⟩, ⟨.EXTENDED_AWAY, some "Working"⟩] := by
  refine ⟨⟨_, rfl, ?_, ?_, ?_⟩, ?_⟩ <;> decide

/-- C14 (amended): no timeout is pending at construction; an event that makes
the timeout pending is the session-idle signal, handled with auto-away enabled,
and right after it the idle flag is set and auto-away is enabled; the auto-away
setter leaves the handle and the attached sources as they are. -/
theorem timer_armed_only_on_idle_entry (dm : TpConnectionPresenceType → Option String)
    (online : Bool) (e : Event) (w w1 : World) (b : Bool)
    (h0 : w.priv.ext_away_timeout = 0) (hs : step dm online e w = some w1)
    (h1 : w1.priv.ext_away_timeout ≠ 0) :
    (∀ presence perr msg merr,
      (empathy_idle_init presence perr msg merr).priv.ext_away_timeout = 0) ∧
    e = .SessionStatusChanged .IDLE ∧ w.priv.auto_away = true ∧
    w1.priv.is_idle = true ∧ w1.priv.auto_away = true ∧
    (empathy_idle_set_auto_away w1 b).priv.ext_away_timeout = w1.priv.ext_away_timeout ∧
    (empathy_idle_set_auto_away w1 b).glib = w1.glib := by
  have hie : idle_entry e w = true := by
    by_contra hc
    have hc : idle_entry e w = false := by simpa using hc
    exact h1 (step_timer_stays_clear dm online e w w1 h0 hc hs)
  simp only [idle_entry, Bool.and_eq_true, decide_eq_true_eq, Bool.not_eq_true'] at hie
  obtain ⟨he, hi⟩ := hie
  subst he
  simp only [step] at hs
  have hg : idle_guard w.priv = false := by
    by_contra hc
    have hc : idle_guard w.priv = true := by simpa using hc
    simp only [idle_session_status_changed_cb, hc, if_true, Option.some.injEq] at hs
    subst hs
    exact h1 h0
  have ha := ((idle_guard_false_iff w.priv).mp hg).1
  rw [session_idle_enter dm online w hg hi, Option.some.injEq] at hs
  subst hs
  exact ⟨fun _ _ _ _ => rfl, rfl, ha, rfl, ha, rfl, rfl⟩

/-- C14 (witness): the idle signal at `world_working` arms the timeout. -/
theorem timer_armed_only_on_idle_entry_witness :
    (∀ presence perr msg merr,
      (empathy_idle_init presence perr msg merr).priv.ext_away_timeout = 0) ∧
    Event.SessionStatusChanged .IDLE = .SessionStatusChanged .IDLE ∧
    world_working.priv.auto_away = true ∧
    world_working_idle.priv.is_idle = true ∧ world_working_idle.priv.auto_away = true ∧
    (empathy_idle_set_auto_away world_working_idle false).priv.ext_away_timeout =
      world_working_idle.priv.ext_away_timeout ∧
    (empathy_idle_set_auto_away world_working_idle false).glib = world_working_idle.glib :=
  timer_armed_only_on_idle_entry default_message_C true (.SessionStatusChanged .IDLE)
    world_working world_working_idle false (by decide) (by decide) (by decide)

/-- C17: construction stores Offline when the presence query fails or
answers Unset, a report of Unset is stored as Offline, and in every state
reached from construction by events whose reports stay in Mission Control's
range the cached presence kind is one of the six mapped kinds, never Unset; so
the signal online to offline returns and leaves the disconnect-save slot
armed. -/
theorem cached_state_always_mapped (dm : TpConnectionPresenceType → Option String)
    (presence : McPresence) (perr : Bool) (msg : Option String) (merr : Bool)
    (es : List (Bool × Event)) (w : World)
    (hr : ∀ oe ∈ es, report_in_range oe.2 = true)
    (hrun : run dm es (empathy_idle_init presence perr msg merr) = some w) :
    (empathy_idle_init presence true msg merr).priv.state = .OFFLINE ∧
    (empathy_idle_init .UNSET perr msg merr).priv.state = .OFFLINE ∧
    (∀ (v : World) (s : Option String),
      (idle_presence_changed_cb v .UNSET s).priv.state = .OFFLINE) ∧
    (w.priv.state = .OFFLINE ∨ w.priv.state = .AVAILABLE ∨ w.priv.state = .AWAY ∨
      w.priv.state = .EXTENDED_AWAY ∨ w.priv.state = .HIDDEN ∨ w.priv.state = .BUSY) ∧
    w.priv.state ≠ .UNSET ∧
    (∀ online : Bool, ∃ w1, idle_state_change_cb dm online w true false = some w1 ∧
      w1.priv.saved_state = w.priv.state ∧ w1.priv.saved_state ≠ .UNSET) := by
  have hinit : ∃ m, mc_presence_of (empathy_idle_init presence perr msg merr).priv.state =
      some m := by
    cases perr <;> cases presence <;>
      simp [empathy_idle_init, empathy_idle_get_actual_presence, mc_presence_of]
  have hm := run_state_mapped dm es _ w hr hinit hrun
  have h6 := (mc_presence_of_some_iff w.priv.state).mp hm
  have hne : w.priv.state ≠ .UNSET := by
    intro h
    rw [h] at h6
    simp at h6
  refine ⟨rfl, ?_, fun _ _ => rfl, h6, hne, ?_⟩
  · cases perr <;> rfl
  · intro online
    exact ⟨_, state_change_disconnect dm online w, rfl, hne⟩

/-- C17 (witness): the coordinator `world_reported`, constructed from a
failed query and then told Unset and Busy by Mission Control, has a mapped
cached kind, and a disconnection arms the slot. -/
theorem cached_state_always_mapped_witness :
    (world_reported.priv.state = .OFFLINE ∨ world_reported.priv.state = .AVAILABLE ∨
      world_reported.priv.state = .AWAY ∨ world_reported.priv.state = .EXTENDED_AWAY ∨
      world_reported.priv.state = .HIDDEN ∨ world_reported.priv.state = .BUSY) ∧
    world_reported.priv.state ≠ .UNSET ∧
    (∀ online : Bool, ∃ w1,
      idle_state_change_cb default_message_C online world_reported true false = some w1 ∧
      w1.priv.saved_state = world_reported.priv.state ∧ w1.priv.saved_state ≠ .UNSET) :=
  (cached_state_always_mapped default_message_C .AVAILABLE true none false
    [(true, .PresenceChanged .UNSET none), (false, .PresenceChanged .BUSY (some "In a call")),
     (true, .SetAutoAway true), (true, .SessionStatusChanged .IDLE)]
    world_reported (by decide) (by decide)).2.2.2

end EmpathyIdle

namespace EmpathyLiveSearch

/-! ## Printable ASCII -/

theorem ascii_range_facts : ∀ n : Nat, n < 127 → 32 ≤ n →
    printable (Char.ofNat n).toLower ∧
    (Char.ofNat n).toLower.isAlphanum = (Char.ofNat n).isAlphanum := by
  decide

theorem printable_toLower (c : Char) (h : printable c) :
    printable c.toLower ∧ c.toLower.isAlphanum = c.isAlphanum := by
  unfold printable at h
  have h2 := ascii_range_facts c.toNat (by omega) h.1
  rwa [Char.ofNat_toNat] at h2

theorem printable_ne_NUL (c : Char) (h : printable c) : c ≠ NUL := by
  intro e
  subst e
  revert h
  decide

theorem alnum_printable (c : Char) (h : c.isAlphanum = true) : printable c := by
  unfold printable
  simp only [Char.isAlphanum, Char.isAlpha, Char.isUpper, Char.isLower, Char.isDigit,
    Bool.or_eq_true, Bool.and_eq_true, decide_eq_true_eq] at h
  have e : c.toNat = c.val.toNat := rfl
  rw [e]
  simp only [UInt32.le_def, BitVec.le_def] at h
  have t : ∀ a : UInt32, a.toBitVec.toNat = a.toNat := fun _ => rfl
  have e1 : (65 : UInt32).toNat = 65 := rfl
  have e2 : (90 : UInt32).toNat = 90 := rfl
  have e3 : (97 : UInt32).toNat = 97 := rfl
  have e4 : (122 : UInt32).toNat = 122 := rfl
  have e5 : (48 : UInt32).toNat = 48 := rfl
  have e6 : (57 : UInt32).toNat = 57 := rfl
  simp only [t, e1, e2, e3, e4, e5, e6] at h
  omega

theorem stripped_char_ascii (G : GUnicode) (hG : G.ascii_exact) (c : Char)
    (h : printable c) : stripped_char G c = c.toLower := by
  obtain ⟨h1, h2, -, -⟩ := hG c h
  obtain ⟨-, -, h3, -⟩ := hG c.toLower (printable_toLower c h).1
  simp [stripped_char, h1, h2, h3]

theorem skip_non_alnum_eq (G : GUnicode) (hG : G.ascii_exact) (p : List Char)
    (hp : ∀ c ∈ p, printable c) :
    skip_non_alnum G p = p.dropWhile (fun c => !c.isAlphanum) := by
  induction p with
  | nil => rfl
  | cons c cs ih =>
    have hc := (hG c (hp c (List.mem_cons_self _ _))).2.2.2
    have ih := ih (fun d hd => hp d (List.mem_cons_of_mem _ hd))
    by_cases h : c.isAlphanum = true <;> simp [skip_non_alnum, List.dropWhile, hc, h, ih]

theorem skip_alnum_eq (G : GUnicode) (hG : G.ascii_exact) (p : List Char)
    (hp : ∀ c ∈ p, printable c) :
    skip_alnum G p = p.dropWhile Char.isAlphanum := by
  induction p with
  | nil => rfl
  | cons c cs ih =>
    have hc := (hG c (hp c (List.mem_cons_self _ _))).2.2.2
    have ih := ih (fun d hd => hp d (List.mem_cons_of_mem _ hd))
    by_cases h : c.isAlphanum = true <;> simp [skip_alnum, List.dropWhile, hc, h, ih]

theorem strip_loop_eq (G : GUnicode) (hG : G.ascii_exact) (p : List Char)
    (hp : ∀ c ∈ p, printable c) : strip_loop G p = p.map Char.toLower := by
  induction p with
  | nil => rfl
  | cons c cs ih =>
    have hc := hp c (List.mem_cons_self _ _)
    have ih := ih (fun d hd => hp d (List.mem_cons_of_mem _ hd))
    have hne := printable_ne_NUL _ (printable_toLower c hc).1
    simp [strip_loop, stripped_char_ascii G hG c hc, hne, ih]

theorem drop_cons_getD (L : List Char) (i : Nat) (x : Char) (xs : List Char) (d : Char)
    (h : L.drop i = x :: xs) : L.getD i d = x ∧ L.drop (i + 1) = xs := by
  induction L generalizing i with
  | nil => simp at h
  | cons a l ih =>
    cases i with
    | zero =>
      simp only [List.drop_zero, List.cons.injEq] at h
      simp [h.1, h.2]
    | succ j =>
      simp only [List.drop_succ_cons] at h
      have := ih j h
      simpa using this

theorem dropWhile_head_false (f : Char → Bool) (t : List Char) (r : Char) (rs : List Char)
    (h : t.dropWhile f = r :: rs) : f r = false := by
  induction t with
  | nil => simp at h
  | cons a l ih =>
    by_cases ha : f a = true
    · simp only [List.dropWhile, ha] at h
      exact ih h
    · have ha : f a = false := by simpa using ha
      simp only [List.dropWhile, ha, List.cons.injEq] at h
      rw [← h.1]
      exact ha

theorem dropWhile_run_append (u rest : List Char) (hu : ∀ c ∈ u, c.isAlphanum = true)
    (hrest : ∀ r rs, rest = r :: rs → r.isAlphanum = false) :
    (u ++ rest).dropWhile Char.isAlphanum = rest := by
  induction u with
  | nil =>
    cases rest with
    | nil => rfl
    | cons r rs => simp [List.dropWhile, hrest r rs rfl]
  | cons a l ih =>
    have ha := hu a (List.mem_cons_self _ _)
    simp only [List.cons_append, List.dropWhile, ha]
    exact ih (fun c hc => hu c (List.mem_cons_of_mem _ hc))

/-! ## The word loop -/

theorem match_word_cons (G : GUnicode) (L : List Char) (c : Char) (cs : List Char) (i : Nat) :
    match_word G L (c :: cs) i =
      if stripped_char G c ≠ NUL then
        if stripped_char G c ≠ L.getD i NUL then .stopped (c :: cs)
        else if L.getD (i + 1) NUL = NUL then .matched
        else match_word G L cs (i + 1)
      else match_word G L cs i := rfl

/-- The second inner loop on a word `u` followed by `rest` (empty, or led by
a character that is not alphanumeric): it returns TRUE exactly when what is
left of the text is a prefix of the stripped word, and otherwise stops at a
position from which the third loop reaches `rest`. -/
theorem match_word_spec (G : GUnicode) (hG : G.ascii_exact) (L : List Char)
    (hL : ∀ x ∈ L, x.isAlphanum = true ∧ x ≠ NUL) (rest : List Char)
    (hrp : ∀ c ∈ rest, printable c)
    (hrest : ∀ r rs, rest = r :: rs → r.isAlphanum = false) :
    ∀ (u : List Char), (∀ c ∈ u, c.isAlphanum = true) →
      ∀ (i : Nat) (x : Char) (xs : List Char), L.drop i = x :: xs →
        (x :: xs <+: u.map Char.toLower → match_word G L (u ++ rest) i = .matched) ∧
        (¬ (x :: xs <+: u.map Char.toLower) →
          ∃ p2, match_word G L (u ++ rest) i = .stopped p2 ∧ skip_alnum G p2 = rest) := by
  intro u
  induction u with
  | nil =>
    intro _ i x xs hd
    have hx := (drop_cons_getD L i x xs NUL hd).1
    have hxL : x ∈ L := List.mem_of_mem_drop (hd ▸ List.mem_cons_self x xs)
    refine ⟨fun h => absurd h (by simp), fun _ => ?_⟩
    cases rest with
    | nil => exact ⟨[], rfl, rfl⟩
    | cons r rs =>
      have hr := hrp r (List.mem_cons_self _ _)
      have hra := hrest r rs rfl
      have hsc := stripped_char_ascii G hG r hr
      have hne := printable_ne_NUL _ (printable_toLower r hr).1
      have hdiff : r.toLower ≠ x := by
        intro e
        have h1 := (printable_toLower r hr).2
        rw [e, (hL x hxL).1, hra] at h1
        exact absurd h1 (by simp)
      refine ⟨r :: rs, ?_, ?_⟩
      · rw [List.nil_append, match_word_cons, hsc, hx, if_pos hne, if_pos hdiff]
      · rw [skip_alnum_eq G hG _ hrp]
        simp [List.dropWhile, hra]
  | cons a l ih =>
    intro hu i x xs hd
    have hx := (drop_cons_getD L i x xs NUL hd).1
    have hd1 := (drop_cons_getD L i x xs NUL hd).2
    have haa := hu a (List.mem_cons_self _ _)
    have hap := alnum_printable a haa
    have hl : ∀ c ∈ l, c.isAlphanum = true := fun c hc => hu c (List.mem_cons_of_mem _ hc)
    have hsc := stripped_char_ascii G hG a hap
    have hne := printable_ne_NUL _ (printable_toLower a hap).1
    have hprint : ∀ c ∈ (a :: l) ++ rest, printable c := by
      intro c hc
      rcases List.mem_append.mp hc with h | h
      · exact alnum_printable c (hu c h)
      · exact hrp c h
    by_cases hax : a.toLower = x
    · cases xs with
      | nil =>
        have hg : L.getD (i + 1) NUL = NUL := by
          rw [List.getD_eq_getElem?_getD, ← List.head?_drop, hd1]
          rfl
        constructor
        · intro _
          rw [List.cons_append, match_word_cons, hsc, hx, hg, if_pos hne,
            if_neg (not_not.mpr hax), if_pos rfl]
        · intro hnp
          exact absurd (by simp [hax]) hnp
      | cons y ys =>
        have hy := (drop_cons_getD L (i + 1) y ys NUL hd1).1
        have hyL : y ∈ L := List.mem_of_mem_drop (hd1 ▸ List.mem_cons_self y ys)
        have hyne := (hL y hyL).2
        have hrec : match_word G L ((a :: l) ++ rest) i = match_word G L (l ++ rest) (i + 1) := by
          rw [List.cons_append, match_word_cons, hsc, hx, hy, if_pos hne,
            if_neg (not_not.mpr hax), if_neg hyne]
        obtain ⟨ih1, ih2⟩ := ih hl (i + 1) y ys hd1
        have hiff : (x :: y :: ys <+: (a :: l).map Char.toLower) ↔
            (y :: ys <+: l.map Char.toLower) := by
          simp [List.map_cons, hax, List.cons_prefix_cons]
        constructor
        · intro h
          rw [hrec]
          exact ih1 (hiff.mp h)
        · intro h
          rw [hrec]
          exact ih2 (fun h2 => h (hiff.mpr h2))
    · constructor
      · intro h
        simp only [List.map_cons, List.cons_prefix_cons] at h
        exact absurd h.1.symm hax
      · intro _
        refine ⟨(a :: l) ++ rest, ?_, ?_⟩
        · rw [List.cons_append, match_word_cons, hsc, hx, if_pos hne, if_pos hax]
        · rw [skip_alnum_eq G hG _ hprint]
          exact dropWhile_run_append (a :: l) rest hu hrest

/-! ## Words -/

theorem spec_words_skip (p : List Char) :
    spec_words p = spec_words (p.dropWhile (fun c => !c.isAlphanum)) := by
  induction p with
  | nil => rfl
  | cons c cs ih =>
    by_cases h : c.isAlphanum = true
    · simp [List.dropWhile, h]
    · have h : c.isAlphanum = false := by simpa using h
      simp only [List.dropWhile, h, Bool.not_false]
      rw [← ih]
      simp [spec_words, h]

theorem spec_words_run (t : List Char) :
    ∀ a : Char, a.isAlphanum = true →
      spec_words (a :: t) =
        (a :: t.takeWhile Char.isAlphanum) :: spec_words (t.dropWhile Char.isAlphanum) := by
  induction t with
  | nil =>
    intro a ha
    simp [spec_words, ha]
  | cons d ds ih =>
    intro a ha
    by_cases hd : d.isAlphanum = true
    · have h2 := ih d hd
      rw [spec_words, if_pos ha]
      simp only [hd, if_true, h2, List.takeWhile, List.dropWhile]
    · have hd : d.isAlphanum = false := by simpa using hd
      rw [spec_words, if_pos ha]
      simp [hd, List.takeWhile, List.dropWhile]

/-! ## The outer loop -/

/-- With more fuel than characters, the outer loop ends and answers whether
some word starts with the text. -/
theorem match_loop_spec (G : GUnicode) (hG : G.ascii_exact) (x : Char) (xs : List Char)
    (hL : ∀ y ∈ x :: xs, y.isAlphanum = true ∧ y ≠ NUL) :
    ∀ (fuel : Nat) (p : List Char), p.length < fuel → (∀ c ∈ p, printable c) →
      match_loop G (x :: xs) fuel p =
        some (decide (∃ w ∈ spec_words p, x :: xs <+: w.map Char.toLower)) := by
  intro fuel
  induction fuel with
  | zero => intro p h; exact absurd h (Nat.not_lt_zero _)
  | succ f ih =>
    intro p hlen hp
    cases p with
    | nil => simp [match_loop, spec_words]
    | cons c cs =>
      have hsuf := List.dropWhile_suffix (l := c :: cs) (fun c => !c.isAlphanum)
      have hp1 : ∀ d ∈ (c :: cs).dropWhile (fun c => !c.isAlphanum), printable d :=
        fun d hd => hp d (hsuf.mem hd)
      have hlen1 := hsuf.length_le
      rw [spec_words_skip (c :: cs)]
      simp only [match_loop]
      rw [skip_non_alnum_eq G hG _ hp]
      cases hq : (c :: cs).dropWhile (fun c => !c.isAlphanum) with
      | nil => simp [match_word, skip_alnum, spec_words]
      | cons a t =>
        rw [hq] at hp1 hlen1
        have haa : a.isAlphanum = true := by
          have := dropWhile_head_false _ _ a t hq
          simpa using this
        have hu : ∀ d ∈ a :: t.takeWhile Char.isAlphanum, d.isAlphanum = true := by
          intro d hd
          rcases List.mem_cons.mp hd with h | h
          · rw [h]; exact haa
          · exact List.mem_takeWhile_imp h
        have hsplit : (a :: t.takeWhile Char.isAlphanum) ++ t.dropWhile Char.isAlphanum =
            a :: t := by
          simp
        have hrp : ∀ d ∈ t.dropWhile Char.isAlphanum, printable d :=
          fun d hd => hp1 d (List.mem_cons_of_mem _ ((List.dropWhile_suffix _).mem hd))
        have hrest : ∀ r rs, t.dropWhile Char.isAlphanum = r :: rs → r.isAlphanum = false :=
          fun r rs h => dropWhile_head_false _ _ r rs h
        have hrlen := (List.dropWhile_suffix (l := t) Char.isAlphanum).length_le
        obtain ⟨hm1, hm2⟩ := match_word_spec G hG (x :: xs) hL _ hrp hrest _ hu 0 x xs rfl
        rw [hsplit] at hm1 hm2
        rw [spec_words_run t a haa]
        by_cases hpre : x :: xs <+: (a :: t.takeWhile Char.isAlphanum).map Char.toLower
        · rw [hm1 hpre]
          have : ∃ w ∈ (a :: t.takeWhile Char.isAlphanum) ::
              spec_words (t.dropWhile Char.isAlphanum), x :: xs <+: w.map Char.toLower :=
            ⟨_, List.mem_cons_self _ _, hpre⟩
          simp only [this, decide_True]
        · obtain ⟨p2, hp2, hsk⟩ := hm2 hpre
          rw [hp2]
          simp only
          rw [hsk]
          cases hr : t.dropWhile Char.isAlphanum with
          | nil =>
            have hno : ¬ ∃ w ∈ (a :: t.takeWhile Char.isAlphanum) :: spec_words [],
                x :: xs <+: w.map Char.toLower := by
              rintro ⟨w, hw, hx⟩
              simp only [spec_words, List.mem_singleton] at hw
              subst hw
              exact hpre hx
            simp only [hno, decide_False]
          | cons r rs =>
            rw [hr] at hrp hrlen
            have hra := hrest r rs hr
            simp only
            rw [ih rs (by simp only [List.length_cons] at hlen hlen1 hrlen; omega)
              (fun d hd => hrp d (List.mem_cons_of_mem _ hd))]
            have hw : spec_words (r :: rs) = spec_words rs := by
              simp [spec_words, hra]
            rw [hw]
            congr 1
            simp only [List.mem_cons, exists_eq_or_imp, hpre, false_or]

/-! ## The matcher -/

theorem glib_ascii_exact : glib_ascii.ascii_exact := by
  intro c hc
  unfold printable at hc
  have h : ¬ (c.toNat < 32 ∨ c.toNat = 127) := by omega
  simp [glib_ascii, h]

/-- C16: on a string of printable ASCII characters and a non-empty text of
ASCII letters and digits, `empathy_live_search_match_string` returns, and
returns TRUE exactly when some word of the string (a maximal run of
alphanumeric characters) starts with the text, compared case-insensitively;
"aba" matches "Abasto" and "A tool (abacus)" and does not match "Moraba". -/
theorem live_search_matches_word_start (G : GUnicode) (hG : G.ascii_exact)
    (string pfx : String) (hs : ∀ c ∈ string.toList, printable c) (hne : pfx ≠ "")
    (hp : ∀ c ∈ pfx.toList, c.isAlphanum = true) :
    empathy_live_search_match_string G (some string) (some pfx) =
      some (decide (spec_some_word_starts_with string pfx)) ∧
    empathy_live_search_match_string glib_ascii (some "Abasto") (some "aba") = some true ∧
    empathy_live_search_match_string glib_ascii (some "A tool (abacus)") (some "aba") =
      some true ∧
    empathy_live_search_match_string glib_ascii (some "Moraba") (some "aba") = some false := by
  refine ⟨?_, by decide, by decide, by decide⟩
  have hpp : ∀ c ∈ pfx.toList, printable c := fun c hc => alnum_printable c (hp c hc)
  have hstrip : strip_utf8_string G (some pfx) = some (pfx.toList.map Char.toLower) := by
    have hemp : EmpathyIdle.EMP_STR_EMPTY (some pfx) = false := by
      simp [EmpathyIdle.EMP_STR_EMPTY, hne]
    unfold strip_utf8_string
    simp only [hemp, Bool.false_eq_true, if_false, Option.getD_some]
    rw [strip_loop_eq G hG _ hpp]
  have hL : ∀ y ∈ pfx.toList.map Char.toLower, y.isAlphanum = true ∧ y ≠ NUL := by
    intro y hy
    obtain ⟨c, hc, rfl⟩ := List.mem_map.mp hy
    have h1 := printable_toLower c (hpp c hc)
    exact ⟨by rw [h1.2]; exact hp c hc, printable_ne_NUL _ h1.1⟩
  unfold empathy_live_search_match_string spec_some_word_starts_with
  rw [hstrip]
  obtain ⟨x, xs, hl⟩ : ∃ x xs, pfx.toList.map Char.toLower = x :: xs := by
    cases hl : pfx.toList.map Char.toLower with
    | nil =>
      have h0 : pfx.toList = [] := by simpa using hl
      exact absurd (String.ext h0) hne
    | cons x xs => exact ⟨x, xs, rfl⟩
  rw [hl] at hL
  have hx : x ≠ NUL := (hL x (List.mem_cons_self _ _)).2
  simp only [hl, live_search_match_string, List.getD_cons_zero, hx, if_false]
  by_cases he : string = ""
  · subst he
    simp [EmpathyIdle.EMP_STR_EMPTY, spec_words]
  · have hemp : EmpathyIdle.EMP_STR_EMPTY (some string) = false := by
      simp [EmpathyIdle.EMP_STR_EMPTY, he]
    simp only [hemp, Bool.false_eq_true, if_false, Option.getD_some]
    exact match_loop_spec G hG x xs hL _ _ (Nat.lt_succ_self _) hs

/-- C16 (witness): the statement for the GLib instance that is exact on
ASCII, the string "A tool (abacus)" and the text "ABA". -/
theorem live_search_matches_word_start_witness :
    empathy_live_search_match_string glib_ascii (some "A tool (abacus)") (some "ABA") =
      some (decide (spec_some_word_starts_with "A tool (abacus)" "ABA")) :=
  (live_search_matches_word_start glib_ascii glib_ascii_exact "A tool (abacus)" "ABA"
    (by decide) (by decide) (by decide)).1

end EmpathyLiveSearch
